import Mathlib

/-!
Verification development for the DataForge repository's synthetic vSphere
inventory generator (`src/generate-vsphere.py`).

The Python program is a single-pass, dependency-ordered pipeline of random
generators populating in-memory record lists.  We embed it shallowly:

* Randomness (`random.randint`, `random.choice`, `random.choices`,
  `random.uniform`, `random.sample`, `uuid.uuid4`) is modelled by an oracle
  `Rng`: a stream of natural numbers consumed one draw at a time, in source
  order.  A bounded draw maps the oracle value into the requested range with
  a modulus, so every value the Python library can return is reachable and
  no value outside the range is.  Weighted choices (`random.choices` with a
  `weights` keyword) can return any listed item with positive probability;
  the oracle chooses the index, which subsumes the distribution.  The
  continuous draws (`random.uniform(a, b)`, used only for uptime and
  space-utilisation figures) are modelled at integer granularity inside the
  same closed interval; no claim depends on their fractional parts.
* Python `dict` records become Lean structures with the source's field
  names; the per-kind `self.<kind>` lists become lists threaded through the
  pipeline, and the two in-place "post-pass" loops that back-fill cluster
  aggregates become explicit list maps.
* Python `float` configuration weights (decimals such as `0.3`) become
  exact rationals `Q` (numerator/denominator) with the operations the
  source performs on them: sum, comparison against the `0.99`/`1.01`
  tolerance bounds, multiplication, division and `math.ceil`.  Every
  concrete weight used in the theorems below is exactly representable in
  binary floating point or is used in a computation whose float and exact
  results agree, so no claim rests on rounding differences.
* `raise`-ing code paths return `Except`/`Option`: configuration
  validation returns `Except String`, and a generator whose parent lookup
  (`next(...)`)/dict access/choice from a possibly-empty catalog can fail
  returns `Option`.
* Wall-clock values (`datetime.now()` bounds of `random_date`, the
  `strftime` renderings) are opaque to every claim; a generated date is
  kept as the raw oracle draw.
-/

set_option maxRecDepth 40000

/-! ## Randomness oracle -/

/-- The random source: an infinite stream of naturals and a position.  Each
`random.*` call of the source consumes draws from the stream in program
order. -/
structure Rng where
  stream : Nat → Nat
  pos : Nat
deriving Inhabited

/-- Consume one draw. -/
def Rng.next (r : Rng) : Nat × Rng :=
  (r.stream r.pos, ⟨r.stream, r.pos + 1⟩)

/-- `random.randint(a, b)`: a uniformly drawn integer of the closed interval
`[a, b]`.  The oracle draw is folded into the interval by a modulus.  (For
`a > b` Python raises `ValueError`; the model then returns `a`.  No
generated call site and no theorem below reaches that case: concrete bounds
are in order, and configured ranges carry an explicit `min ≤ max`
hypothesis where one is needed.) -/
def randint (a b : Nat) (r : Rng) : Nat × Rng :=
  let (n, r') := r.next
  (a + n % (b - a + 1), r')

/-- `random.choice(lst)` on a list known to be nonempty at every call site
(the source's literal lists such as `['Connected'] * 95 + ['Maintenance'] * 5`).
Python raises `IndexError` on an empty list; the model returns the default. -/
def pyChoiceD (l : List String) (d : String) (r : Rng) : String × Rng :=
  let (n, r') := r.next
  (l.getD (n % l.length) d, r')

/-- `random.choice` / `random.choices(..., weights=...)` on a configured
catalog: `none` when the catalog is empty (Python raises), otherwise a
member picked by the oracle. -/
def pyChoiceOpt (l : List α) (r : Rng) : Option (α × Rng) :=
  let (n, r') := r.next
  match l with
  | [] => none
  | x :: xs => some ((x :: xs).getD (n % (x :: xs).length) x, r')

/-- `random.choice` on a configured list of numbers (datastore sizes,
typical cpu/memory lists). -/
def pyChoiceNat (l : List Nat) (r : Rng) : Option (Nat × Rng) :=
  let (n, r') := r.next
  match l with
  | [] => none
  | x :: xs => some ((x :: xs).getD (n % (x :: xs).length) x, r')

/-! ## Decimal/hex rendering and Python string helpers

Python builds every identifier and name with f-strings.  The model renders
numbers with its own structurally recursive decimal/hexadecimal writers
(standard digits, identical text to Python's `{n}`, `{n:02d}`, `{n:04d}`,
`{n:02x}` and `uuid4().hex[:8]` renderings), so that the injectivity and
digit-only facts the identifier-uniqueness claims need are provable. -/

/-- Fuel-driven decimal digit writer (fuel `n + 1` always suffices). -/
def decDigitsAux : Nat → Nat → List Char
  | 0, _ => []
  | Nat.succ fuel, n =>
    if n < 10 then [Nat.digitChar n]
    else decDigitsAux fuel (n / 10) ++ [Nat.digitChar (n % 10)]

/-- Decimal rendering of a natural, as Python's `f"{n}"`. -/
def decStr (n : Nat) : String :=
  ⟨decDigitsAux (n + 1) n⟩

/-- Python's `f"{n:02d}"`: decimal, zero-padded to width 2. -/
def pad2 (n : Nat) : String :=
  if n < 10 then "0" ++ decStr n else decStr n

/-- Python's `f"{n:04d}"`: decimal, zero-padded to width 4. -/
def pad4 (n : Nat) : String :=
  if n < 10 then "000" ++ decStr n
  else if n < 100 then "00" ++ decStr n
  else if n < 1000 then "0" ++ decStr n
  else decStr n

/-- Python's `f"{n:02x}"` for a byte value: two lowercase hex digits. -/
def hex2 (n : Nat) : String :=
  ⟨[Nat.digitChar (n / 16 % 16), Nat.digitChar (n % 16)]⟩

/-- `uuid.uuid4().hex[:8]`: the first eight lowercase hex digits of a
random 128-bit value — eight hex digits of an oracle draw. -/
def hex8 (n : Nat) : String :=
  ⟨[Nat.digitChar (n / 16 ^ 7 % 16), Nat.digitChar (n / 16 ^ 6 % 16),
    Nat.digitChar (n / 16 ^ 5 % 16), Nat.digitChar (n / 16 ^ 4 % 16),
    Nat.digitChar (n / 16 ^ 3 % 16), Nat.digitChar (n / 16 ^ 2 % 16),
    Nat.digitChar (n / 16 % 16), Nat.digitChar (n % 16)]⟩

/-- Python's `str.split(sep)` on a single-character separator, on the
character list: keeps empty pieces, `[[]]` for the empty string. -/
def pySplitCh (sep : Char) : List Char → List (List Char)
  | [] => [[]]
  | c :: rest =>
    match pySplitCh sep rest with
    | [] => [[]]
    | h :: t => if c = sep then [] :: h :: t else (c :: h) :: t

/-- `s.split('-')` etc. as strings. -/
def strSplit (sep : Char) (s : String) : List String :=
  (pySplitCh sep s.data).map String.mk

/-- Python's `str.replace(pat, repl)`: replace each non-overlapping
occurrence left to right (fuel-driven; the string's length bounds the
steps for the nonempty patterns the source uses). -/
def pyReplaceAux (pat repl : List Char) : Nat → List Char → List Char
  | 0, l => l
  | Nat.succ _, [] => []
  | Nat.succ fuel, c :: rest =>
    if pat.isPrefixOf (c :: rest) then
      repl ++ pyReplaceAux pat repl fuel (List.drop pat.length (c :: rest))
    else
      c :: pyReplaceAux pat repl fuel rest

/-- `s.replace(pat, repl)`. -/
def pyReplace (s pat repl : String) : String :=
  ⟨pyReplaceAux pat.data repl.data s.data.length s.data⟩

/-- Python's `str.lower()` (ASCII suffices for the generated names). -/
def pyLower (s : String) : String :=
  ⟨s.data.map Char.toLower⟩

/-- Python's `str.capitalize()`: first character upper-cased, the rest
lower-cased. -/
def pyCapitalize (s : String) : String :=
  match s.data with
  | [] => ⟨[]⟩
  | c :: rest => ⟨Char.toUpper c :: rest.map Char.toLower⟩

/-- Python's `str.startswith(p)`. -/
def pyStartsWith (s p : String) : Bool :=
  p.data.isPrefixOf s.data

/-- Python's `sep.join(lst)`. -/
def pyJoin (sep : String) (l : List String) : String :=
  ⟨List.intercalate sep.data (l.map String.data)⟩

/-- Python's `s.split()[0]` on the nonempty note strings: the first
whitespace-delimited word. -/
def pyFirstWord (s : String) : String :=
  ⟨s.data.takeWhile (fun c => c ≠ ' ')⟩

/-! ## Exact rationals for the configured weights

The YAML weights are decimals (`0.3`, `0.15`, ...).  `Q` carries them
exactly; `qCeil` is `math.ceil`.  Only the operations the source performs
exist: literal construction, sum, order against the tolerance bounds,
multiplication by a count, and the two ceilinged divisions. -/

/-- An exact rational `num / den` (`den` positive at every use). -/
structure Q where
  num : Int
  den : Nat
deriving DecidableEq, Inhabited

/-- Addition (used for weight sums). -/
def qAdd (a b : Q) : Q :=
  ⟨a.num * b.den + b.num * a.den, a.den * b.den⟩

/-- Sum of a list of weights. -/
def qSum (l : List Q) : Q :=
  l.foldl qAdd ⟨0, 1⟩

/-- Order on `Q` (cross multiplication; dens positive at every use). -/
def qLe (a b : Q) : Bool :=
  a.num * b.den ≤ b.num * a.den

/-- Multiplication (a count times a weight). -/
def qMul (a b : Q) : Q :=
  ⟨a.num * b.num, a.den * b.den⟩

/-- The exact value of an integer division `m / n` (Python `/` on ints). -/
def qOfDiv (m n : Nat) : Q :=
  ⟨m, n⟩

/-- A whole number as a rational. -/
def qOfNat (n : Nat) : Q :=
  ⟨n, 1⟩

/-- `math.ceil` of an exact rational: `⌈num / den⌉ = (num + den - 1) ediv den`
for a positive `den` (integer `/` on `ℤ` is euclidean division). -/
def qCeil (a : Q) : Int :=
  (a.num + a.den - 1) / (a.den : Int)

/-- `math.ceil` followed by use as a count (`range(k)`): a negative ceiling
yields an empty range, as `Int.toNat` clamps to `0`. -/
def qCeilN (a : Q) : Nat :=
  (qCeil a).toNat

/-- Sanity: `qCeil` satisfies the Galois characterisation of the ceiling of
`num / den`, so it is exactly `math.ceil`. -/
theorem qCeil_spec (a : Q) (z : Int) (h : 0 < a.den) :
    qCeil a ≤ z ↔ a.num ≤ z * a.den := by
  have hd : (0 : Int) < (a.den : Int) := by exact_mod_cast h
  have H : (z + 1 ≤ (a.num + (a.den : Int) - 1) / (a.den : Int)) ↔
      (z + 1) * (a.den : Int) ≤ a.num + (a.den : Int) - 1 :=
    Int.le_ediv_iff_mul_le hd
  rw [add_one_mul] at H
  unfold qCeil
  omega

/-! ## Configuration model

The YAML document, after `yaml.safe_load`, as a typed structure.  The
presence checks of `load_config` (`required_sections`) concern the raw
mapping; a typed configuration has every section, so only the data-level
validations remain.  Range strings such as `'4-8'` (consumed through
`parse_range`, which splits on `'-'` and converts both halves to int) are
carried pre-parsed as `min`/`max` pairs. -/

/-- One entry of `scale.size_definitions`. -/
structure SizeDef where
  total_vms : Nat
  avg_vms_per_host : Nat
  max_hosts_per_cluster : Nat
deriving DecidableEq, Inhabited

/-- One category of a `scale.distributions.cluster_sizes` distribution:
name, weight and the `hosts: 'a-b'` range. -/
structure ClusterSizeCat where
  name : String
  weight : Q
  hosts_min : Nat
  hosts_max : Nat
deriving DecidableEq, Inhabited

/-- One category of `scale.distributions.vm_density`: name, weight and the
`range: 'a-b'` VM-capacity range. -/
structure VmDensityCat where
  name : String
  weight : Q
  range_min : Nat
  range_max : Nat
deriving DecidableEq, Inhabited

/-- One entry of `hosts.models`. -/
structure HostModel where
  name : String
  weight : Q
  cpu_cores : Nat
  memory_gb : Nat
deriving DecidableEq, Inhabited

/-- One entry of `virtual_machines.os_types`. -/
structure OsType where
  name : String
  weight : Q
  typical_memory_gb : List Nat
  typical_cpu_cores : List Nat
deriving DecidableEq, Inhabited

/-- One entry of `virtual_machines.purposes`. -/
structure VmPurpose where
  name : String
  weight : Q
deriving DecidableEq, Inhabited

/-- One entry of `storage.arrays`. -/
structure StorageArray where
  name : String
  weight : Q
  models : List String
deriving DecidableEq, Inhabited

/-- One entry of the `regions` section.  `calculated_hosts` and
`calculated_clusters` are the fields `calculate_derived_values` writes into
the region's mapping; they are `0` until resolution sets them. -/
structure RegionCfg where
  name : String
  weight : Q
  network_pfx : String
  cluster_distribution : String
  calculated_hosts : Nat := 0
  calculated_clusters : Nat := 0
deriving DecidableEq, Inhabited

/-- The loaded configuration document. -/
structure Config where
  size : String
  size_definitions : List (String × SizeDef)
  cluster_sizes : List (String × List ClusterSizeCat)
  vm_density : List VmDensityCat
  regions : List RegionCfg
  host_models : List HostModel
  os_types : List OsType
  purposes : List VmPurpose
  datastore_sizes_gb : List Nat
  arrays : List StorageArray
deriving DecidableEq, Inhabited

/-- The hardcoded `self.REGIONS` constant of `__init__`: region name,
weight, network prefix value. -/
def REGIONS : List (String × Q × String) :=
  [("HQ-A", ⟨3, 10⟩, "10.10"), ("HQ-B", ⟨3, 10⟩, "10.20"),
   ("NA", ⟨15, 100⟩, "10.30"), ("EU", ⟨15, 100⟩, "10.40"),
   ("APAC", ⟨1, 10⟩, "10.50")]

/-! ## ConfigResolver: `load_config` / `calculate_derived_values`

`load_config` (after the raw-mapping presence checks) looks the selected
size up among the size definitions and calls `calculate_derived_values`,
which checks the region weights sum to `1.0` within the `[0.99, 1.01]`
tolerance and derives `calculated_hosts` / `calculated_clusters` per
region.  The source also contains a `validate_config` method (region and
VM-purpose weight sums, duplicate network prefixes) — that method is never
invoked anywhere in the program; no counterpart participates in resolution
here, which mirrors the code, not the spec. -/

/-- `calculate_derived_values(config, size_config)`: the region-weight
tolerance check, then per region
`region_hosts = math.ceil(total_hosts * weight)` and
`region_clusters = math.ceil(region_hosts / max_hosts_per_cluster)`, where
`total_hosts = math.ceil(total_vms / avg_vms_per_host)` is computed once
before the loop. -/
def calculate_derived_values (cfg : Config) (sz : SizeDef) : Except String Config :=
  let total_hosts : Nat := qCeilN (qOfDiv sz.total_vms sz.avg_vms_per_host)
  let wsum := qSum (cfg.regions.map (fun rc => rc.weight))
  if ¬ (qLe ⟨99, 100⟩ wsum ∧ qLe wsum ⟨101, 100⟩) then
    Except.error "Region weights must sum to 1.0"
  else
    Except.ok { cfg with regions := cfg.regions.map (fun rc =>
      let region_hosts : Nat := qCeilN (qMul (qOfNat total_hosts) rc.weight)
      { rc with
        calculated_hosts := region_hosts,
        calculated_clusters := qCeilN (qOfDiv region_hosts sz.max_hosts_per_cluster) }) }

/-- `load_config` after the file read and section-presence checks: the
size-key validation and the derived-value computation. -/
def load_config (cfg : Config) : Except String Config :=
  match cfg.size_definitions.lookup cfg.size with
  | none => Except.error ("Invalid size '" ++ cfg.size ++ "'")
  | some sz => calculate_derived_values cfg sz

/-! ## Entity records

One structure per generated record kind, fields and field names as in the
source dicts.  Dates are opaque oracle draws (see the header note). -/

/-- A vCenter record (`generate_vcenters`). -/
structure VCenter where
  name : String
  moref : String
  version : String
  build : String
  url : String
  description : String
deriving DecidableEq, Inhabited

/-- A datacenter record (`generate_datacenters`). -/
structure Datacenter where
  name : String
  moref : String
  parent_vcenter : String
  description : String
  status : String
deriving DecidableEq, Inhabited

/-- A cluster record (`generate_clusters`; the three `0` aggregates are
back-filled by the post-passes). -/
structure Cluster where
  name : String
  moref : String
  parent_datacenter : String
  parent_vcenter : String
  total_hosts : Nat
  total_vms : Nat
  total_cpu_cores : Nat
  total_memory : Nat
  size_category : String
  ha_enabled : Bool
  drs_enabled : Bool
  notes : String
deriving DecidableEq, Inhabited

/-- An ESXi host record (`generate_hosts`). -/
structure Host where
  name : String
  moref : String
  parent_cluster : String
  vcenter_moref : String
  vm_capacity : Nat
  cpu_cores : Nat
  memory_gb : Nat
  nic_count : Nat
  datastores_count : Nat
  status : String
  model : String
  vendor : String
  serial : String
  uptime : Nat
deriving DecidableEq, Inhabited

/-- A host NIC record (`generate_host_nics`). -/
structure HostNic where
  name : String
  moref : String
  parent_host : String
  mac_address : String
  link_status : String
  speed : Nat
  duplex : String
  driver : String
  firmware : String
  pci_address : String
  notes : String
deriving DecidableEq, Inhabited

/-- A virtual-machine record (`generate_vms`). -/
structure VM where
  name : String
  moref : String
  parent_host : String
  cluster_moref : String
  vcenter_moref : String
  guest_os : String
  vm_version : String
  cpu_count : Nat
  memory_gb : Nat
  disk_count : Nat
  nic_count : Nat
  ip_addresses : String
  power_state : String
  created_date : Nat
  notes : String
deriving DecidableEq, Inhabited

/-- A VM guest-detail record (`generate_vm_guest_details`). -/
structure GuestDetail where
  vm_moref : String
  guest_os_full : String
  ip_addresses : String
  hostname : String
  uptime : Nat
  tools_status : String
  tools_version : String
  guest_state : String
  cpu_usage : Nat
  memory_usage : Nat
  notes : String
deriving DecidableEq, Inhabited

/-- A datastore record (`generate_datastores`). -/
structure Datastore where
  name : String
  moref : String
  parent_cluster : String
  type : String
  capacity_gb : Nat
  free_space_gb : Nat
  provisioned_space_gb : Nat
  datastore_cluster : String
  storage_array : String
  storage_model : String
  storage_serial : String
deriving DecidableEq, Inhabited

/-- A datastore-cluster record (`generate_datastore_clusters`). -/
structure DatastoreCluster where
  name : String
  moref : String
  parent_cluster : String
  total_capacity_gb : Nat
  free_space_gb : Nat
  total_datastores : Nat
  sdrs_enabled : Bool
  automation_level : String
  space_threshold : Nat
deriving DecidableEq, Inhabited

/-- A distributed-virtual-switch record (`generate_virtual_switches`). -/
structure VirtualSwitch where
  name : String
  moref : String
  type : String
  uplinks : Nat
  port_groups : Nat
  mtu : Nat
  load_balancing : String
  notes : String
deriving DecidableEq, Inhabited

/-- A network record (`generate_networks`).  `associated_vms` is the
comma-joined moref string the source stores. -/
structure Network where
  name : String
  moref : String
  parent_vswitch : String
  ip_range : String
  subnet_mask : String
  gateway : String
  associated_vms : String
  purpose : String
  vlan_id : Nat
  notes : String
deriving DecidableEq, Inhabited

/-- A port-group record (`generate_portgroup`). -/
structure PortGroup where
  name : String
  moref : String
  parent_vswitch : String
  vlan_id : Nat
  associated_vms : String
  security_policy : String
  traffic_shaping : String
  teaming_policy : String
  notes : String
deriving DecidableEq, Inhabited

/-- An NSX tag record (`generate_nsx_tags`). -/
structure NsxTag where
  name : String
  moref : String
  object_type : String
  object_moref : String
  category : String
  value : String
  created_date : Nat
  modified_date : Nat
  notes : String
deriving DecidableEq, Inhabited

/-! ## TopologyGenerator -/

/-- `get_full_region_name(vcenter_name)`: the region encoded in a vCenter's
name — the first dash-separated part, or the first two for `HQ`. -/
def get_full_region_name (vcenter_name : String) : String :=
  let parts := strSplit '-' vcenter_name
  let region := parts.getD 0 ""
  if region = "HQ" then region ++ "-" ++ parts.getD 1 "" else region

/-- `generate_vcenters`, recursing over the `REGIONS` constant. -/
def vcenters_go : List (String × Q × String) → Rng → List VCenter × Rng
  | [], r => ([], r)
  | (region, _, _) :: rest, r =>
    let (u, r) := r.next
    let vc : VCenter :=
      { name := region ++ "-VC-01",
        moref := "vc-" ++ hex8 u,
        version := "7.0.3g",
        build := "20150588",
        url := "https://" ++ pyLower region ++ "-vc-01.vsphere.local",
        description := region ++ " vCenter, deployed 2021" }
    let (more, r) := vcenters_go rest r
    (vc :: more, r)

/-- `generate_vcenters`: one vCenter per entry of the hardcoded `REGIONS`
constant. -/
def generate_vcenters (r : Rng) : List VCenter × Rng :=
  vcenters_go REGIONS r

/-- The `for i in range(num_dcs)` body of `generate_datacenters`. -/
def dc_loop (vcmoref region : String) : Nat → Nat → Rng → List Datacenter × Rng
  | _, 0, r => ([], r)
  | i, Nat.succ k, r =>
    let purpose := if i = 0 then "PROD" else "DR"
    let (u, r) := r.next
    let dc : Datacenter :=
      { name := region ++ "-DC-" ++ purpose,
        moref := "datacenter-" ++ hex8 u,
        parent_vcenter := vcmoref,
        description := purpose ++ " Datacenter for " ++ region,
        status := "Available" }
    let (more, r) := dc_loop vcmoref region (i + 1) k r
    (dc :: more, r)

/-- `generate_datacenters`, recursing over the vCenters. -/
def datacenters_go : List VCenter → Rng → List Datacenter × Rng
  | [], r => ([], r)
  | vc :: rest, r =>
    let region := get_full_region_name vc.name
    let num_dcs := if pyStartsWith region "HQ" then 2 else 1
    let (dcs, r) := dc_loop vc.moref region 0 num_dcs r
    let (more, r) := datacenters_go rest r
    (dcs ++ more, r)

/-- `generate_datacenters`: 2 datacenters (`PROD` + `DR`) for `HQ` regions,
1 otherwise. -/
def generate_datacenters (vcenters : List VCenter) (r : Rng) : List Datacenter × Rng :=
  datacenters_go vcenters r

/-- The `for i in range(num_clusters)` body of `generate_clusters`:
cluster-size category drawn from the region's distribution
(`get_random_from_distribution`), host count drawn from the category's
range. -/
def cluster_loop (dc : Datacenter) (region : String) (dist : List ClusterSizeCat) :
    Nat → Nat → Nat → Rng → Option (List Cluster × Nat × Rng)
  | _, 0, cid, r => some ([], cid, r)
  | i, Nat.succ k, cid, r =>
    match pyChoiceOpt dist r with
    | none => none
    | some (cat, r) =>
      let (th, r) := randint cat.hosts_min cat.hosts_max r
      let cl : Cluster :=
        { name := region ++ "-CL-" ++ pad2 (i + 1),
          moref := "domain-c" ++ decStr cid,
          parent_datacenter := dc.moref,
          parent_vcenter := dc.parent_vcenter,
          total_hosts := th,
          total_vms := 0,
          total_cpu_cores := 0,
          total_memory := 0,
          size_category := cat.name,
          ha_enabled := true,
          drs_enabled := true,
          notes := pyCapitalize cat.name ++ " cluster for " ++ region ++ " workloads" }
      match cluster_loop dc region dist (i + 1) k (cid + 1) r with
      | none => none
      | some (more, cid, r) => some (cl :: more, cid, r)

/-- `generate_clusters`, recursing over the datacenters: parent vCenter
looked up by moref (`next(...)`), region/distribution looked up in the
configuration, `calculated_clusters` clusters generated. -/
def clusters_go (cfg : Config) (vcenters : List VCenter) :
    List Datacenter → Nat → Rng → Option (List Cluster × Nat × Rng)
  | [], cid, r => some ([], cid, r)
  | dc :: rest, cid, r =>
    match vcenters.find? (fun vc => vc.moref == dc.parent_vcenter) with
    | none => none
    | some vc =>
      let region := get_full_region_name vc.name
      match cfg.regions.find? (fun rc => rc.name == region) with
      | none => none
      | some region_config =>
        match cfg.cluster_sizes.lookup region_config.cluster_distribution with
        | none => none
        | some dist =>
          match cluster_loop dc region dist 0 region_config.calculated_clusters cid r with
          | none => none
          | some (cls, cid, r) =>
            match clusters_go cfg vcenters rest cid r with
            | none => none
            | some (more, cid, r) => some (cls ++ more, cid, r)

/-- `generate_clusters`: `cluster_id` starts at `1000`. -/
def generate_clusters (cfg : Config) (vcenters : List VCenter)
    (datacenters : List Datacenter) (r : Rng) : Option (List Cluster × Rng) :=
  match clusters_go cfg vcenters datacenters 1000 r with
  | none => none
  | some (cls, _, r) => some (cls, r)

/-- The `for i in range(host['nic_count'])` loop of `generate_host_nics`. -/
def nic_loop (h : Host) : Nat → Nat → Rng → List HostNic × Rng
  | _, 0, r => ([], r)
  | i, Nat.succ k, r =>
    let (ma, r) := randint 0 255 r
    let (mb, r) := randint 0 255 r
    let (mc, r) := randint 0 255 r
    let (link, r) := pyChoiceD (List.replicate 95 "Up" ++ List.replicate 5 "Down") "" r
    let (spn, r) := r.next
    let speed := [10000, 25000, 40000].getD (spn % 3) 0
    let (fa, r) := randint 1 9 r
    let (fb, r) := randint 0 9 r
    let (pci, r) := randint 0 99 r
    let nic : HostNic :=
      { name := "vmnic" ++ decStr i,
        moref := "nic-" ++ h.moref ++ "-" ++ decStr i,
        parent_host := h.moref,
        mac_address := "00:50:56:" ++ hex2 ma ++ ":" ++ hex2 mb ++ ":" ++ hex2 mc,
        link_status := link,
        speed := speed,
        duplex := "Full",
        driver := "vmxnet3",
        firmware := "1." ++ decStr fa ++ "." ++ decStr fb,
        pci_address := "0000:" ++ pad2 pci ++ ":00." ++ decStr i,
        notes := "NIC " ++ decStr (i + 1) ++ " for host " ++ h.name }
    let (more, r) := nic_loop h (i + 1) k r
    (nic :: more, r)

/-- `generate_host_nics(host)`. -/
def generate_host_nics (h : Host) (r : Rng) : List HostNic × Rng :=
  nic_loop h 0 h.nic_count r

/-- The `for i in range(cluster['total_hosts'])` body of `generate_hosts`,
with the cluster's already-chosen density range and hardware model. -/
def host_loop (cl : Cluster) (model : HostModel) (dmin dmax : Nat) :
    Nat → Nat → Nat → Rng → List Host × List HostNic × Nat × Rng
  | _, 0, hid, r => ([], [], hid, r)
  | i, Nat.succ k, hid, r =>
    let (cap, r) := randint dmin dmax r
    let (dsn, r) := randint 8 16 r
    let (st, r) := pyChoiceD (List.replicate 95 "Connected" ++ List.replicate 5 "Maintenance") "" r
    let (ser, r) := randint 100000 999999 r
    let (upt, r) := randint 100 400 r
    let h : Host :=
      { name := pyReplace cl.name "CL" "ESX" ++ "-" ++ pad2 (i + 1),
        moref := "host-" ++ decStr hid,
        parent_cluster := cl.moref,
        vcenter_moref := cl.parent_vcenter,
        vm_capacity := cap,
        cpu_cores := model.cpu_cores,
        memory_gb := model.memory_gb,
        nic_count := 8,
        datastores_count := dsn,
        status := st,
        model := model.name,
        vendor := "Dell",
        serial := "DELL" ++ decStr ser,
        uptime := upt }
    let (nics, r) := generate_host_nics h r
    let (hs, ns, hid, r) := host_loop cl model dmin dmax (i + 1) k (hid + 1) r
    (h :: hs, nics ++ ns, hid, r)

/-- `generate_hosts`, recursing over the clusters: VM-density category and
hardware model drawn once per cluster, then the per-host loop. -/
def hosts_go (cfg : Config) : List Cluster → Nat → Rng →
    Option (List Host × List HostNic × Nat × Rng)
  | [], hid, r => some ([], [], hid, r)
  | cl :: rest, hid, r =>
    match pyChoiceOpt cfg.vm_density r with
    | none => none
    | some (dens, r) =>
      match pyChoiceOpt cfg.host_models r with
      | none => none
      | some (model, r) =>
        let (hs, ns, hid, r) := host_loop cl model dens.range_min dens.range_max 0 cl.total_hosts hid r
        match hosts_go cfg rest hid r with
        | none => none
        | some (hs2, ns2, hid, r) => some (hs ++ hs2, ns ++ ns2, hid, r)

/-- Post-pass A of `generate_hosts` (`# After generating all hosts, update
cluster totals`): per cluster, the cpu-core and memory sums over the hosts
whose `parent_cluster` matches. -/
def update_cluster_host_totals (clusters : List Cluster) (hosts : List Host) : List Cluster :=
  clusters.map (fun c =>
    let cluster_hosts := hosts.filter (fun h => h.parent_cluster == c.moref)
    { c with
      total_cpu_cores := (cluster_hosts.map (fun h => h.cpu_cores)).sum,
      total_memory := (cluster_hosts.map (fun h => h.memory_gb)).sum })

/-- `generate_hosts`: `host_id` starts at `1000`; the cluster list it
returns is the post-pass-A updated one. -/
def generate_hosts (cfg : Config) (clusters : List Cluster) (r : Rng) :
    Option (List Cluster × List Host × List HostNic × Rng) :=
  match hosts_go cfg clusters 1000 r with
  | none => none
  | some (hs, ns, _, r) => some (update_cluster_host_totals clusters hs, hs, ns, r)

/-- The `for i in range(random.randint(4, 8))` body of
`generate_datastores`. -/
def ds_loop (cfg : Config) (cl : Cluster) : Nat → Nat → Nat → Rng →
    Option (List Datastore × Nat × Rng)
  | _, 0, did, r => some ([], did, r)
  | i, Nat.succ k, did, r =>
    match pyChoiceNat cfg.datastore_sizes_gb r with
    | none => none
    | some (capacity, r) =>
      let (fp, r) := r.next
      let free_space := capacity * (20 + fp % 21) / 100
      let (pp, r) := r.next
      let provisioned := capacity * (70 + pp % 21) / 100
      match pyChoiceOpt cfg.arrays r with
      | none => none
      | some (arr, r) =>
        match pyChoiceOpt arr.models r with
        | none => none
        | some (model, r) =>
          let (ty, r) := pyChoiceD (List.replicate 8 "VMFS-6" ++ List.replicate 2 "NFS") "" r
          let (ser, r) := randint 10000 99999 r
          let ds : Datastore :=
            { name := pyReplace cl.name "CL" "DS" ++ "-" ++ pad2 (i + 1),
              moref := "datastore-" ++ decStr did,
              parent_cluster := cl.moref,
              type := ty,
              capacity_gb := capacity,
              free_space_gb := free_space,
              provisioned_space_gb := provisioned,
              datastore_cluster := "DSC-" ++ cl.name ++ "-01",
              storage_array := arr.name,
              storage_model := arr.name ++ " " ++ model,
              storage_serial := "PS" ++ decStr ser }
          match ds_loop cfg cl (i + 1) k (did + 1) r with
          | none => none
          | some (more, did, r) => some (ds :: more, did, r)

/-- `generate_datastores`, recursing over the clusters. -/
def datastores_go (cfg : Config) : List Cluster → Nat → Rng →
    Option (List Datastore × Nat × Rng)
  | [], did, r => some ([], did, r)
  | cl :: rest, did, r =>
    let (cnt, r) := randint 4 8 r
    match ds_loop cfg cl 0 cnt did r with
    | none => none
    | some (dss, did, r) =>
      match datastores_go cfg rest did r with
      | none => none
      | some (more, did, r) => some (dss ++ more, did, r)

/-- `generate_datastores`: `datastore_id` starts at `1000`. -/
def generate_datastores (cfg : Config) (clusters : List Cluster) (r : Rng) :
    Option (List Datastore × Rng) :=
  match datastores_go cfg clusters 1000 r with
  | none => none
  | some (dss, _, r) => some (dss, r)

/-- `generate_datastore_clusters`, recursing over the clusters: one
aggregating record per cluster that has datastores (each has at least 4,
but the guard is the source's). -/
def dscs_go (datastores : List Datastore) : List Cluster → Nat → Rng →
    List DatastoreCluster × Nat × Rng
  | [], did, r => ([], did, r)
  | cl :: rest, did, r =>
    let cluster_datastores := datastores.filter (fun ds => ds.parent_cluster == cl.moref)
    if cluster_datastores.isEmpty then
      dscs_go datastores rest did r
    else
      let (auto, r) := pyChoiceD ["Fully Automated", "Manual"] "" r
      let (thr, r) := randint 75 85 r
      let dsc : DatastoreCluster :=
        { name := "DSC-" ++ cl.name ++ "-01",
          moref := "dsc-" ++ decStr did,
          parent_cluster := cl.moref,
          total_capacity_gb := (cluster_datastores.map (fun ds => ds.capacity_gb)).sum,
          free_space_gb := (cluster_datastores.map (fun ds => ds.free_space_gb)).sum,
          total_datastores := cluster_datastores.length,
          sdrs_enabled := true,
          automation_level := auto,
          space_threshold := thr }
      let (more, did, r) := dscs_go datastores rest (did + 1) r
      (dsc :: more, did, r)

/-- `generate_datastore_clusters`: `dsc_id` starts at `1000`. -/
def generate_datastore_clusters (clusters : List Cluster)
    (datastores : List Datastore) (r : Rng) : List DatastoreCluster × Rng :=
  let (dscs, _, r) := dscs_go datastores clusters 1000 r
  (dscs, r)

/-- `generate_virtual_switches`, recursing over the vCenters (no
randomness). -/
def vswitches_go : List VCenter → Nat → List VirtualSwitch
  | [], _ => []
  | vc :: rest, sid =>
    let region := get_full_region_name vc.name
    let sw : VirtualSwitch :=
      { name := region ++ "-DVS-01",
        moref := "dvs-" ++ decStr sid,
        type := "Distributed",
        uplinks := 4,
        port_groups := 0,
        mtu := 9000,
        load_balancing := "Route based on physical NIC load",
        notes := "Main distributed switch for " ++ region }
    sw :: vswitches_go rest (sid + 1)

/-- `generate_virtual_switches`: `switch_id` starts at `1000`; one switch
per vCenter. -/
def generate_virtual_switches (vcenters : List VCenter) : List VirtualSwitch :=
  vswitches_go vcenters 1000

/-- `generate_vm_guest_details(vm)`: the telemetry conditional on the VM's
power state — randomized when `poweredOn`, zero/\"stopped\" otherwise.  The
conditional expressions consume a draw only in the `poweredOn` branch, as
in Python. -/
def generate_vm_guest_details (vm : VM) (r : Rng) : GuestDetail × Rng :=
  let (upt, r) :=
    if vm.power_state = "poweredOn" then randint 1 400 r else (0, r)
  let (cpu, r) :=
    if vm.power_state = "poweredOn" then randint 20 80 r else (0, r)
  let (mem, r) :=
    if vm.power_state = "poweredOn" then randint 40 90 r else (0, r)
  ({ vm_moref := vm.moref,
     guest_os_full := vm.guest_os,
     ip_addresses := vm.ip_addresses,
     hostname := pyLower vm.name,
     uptime := upt,
     tools_status := if vm.power_state = "poweredOn" then "Running Current" else "Not Running",
     tools_version := "12365",
     guest_state := if vm.power_state = "poweredOn" then "Running" else "Stopped",
     cpu_usage := cpu,
     memory_usage := mem,
     notes := vm.notes }, r)

/-- The `for i in range(host['vm_capacity'])` body of `generate_vms`. -/
def vm_loop (cfg : Config) (h : Host) (network_pfx : String) :
    Nat → Nat → Rng → Option (List VM × List GuestDetail × Nat × Rng)
  | 0, vid, r => some ([], [], vid, r)
  | Nat.succ k, vid, r =>
    match pyChoiceOpt cfg.os_types r with
    | none => none
    | some (os_type, r) =>
      match pyChoiceOpt cfg.purposes r with
      | none => none
      | some (purpose, r) =>
        match pyChoiceNat os_type.typical_memory_gb r with
        | none => none
        | some (memory_gb, r) =>
          match pyChoiceNat os_type.typical_cpu_cores r with
          | none => none
          | some (cpu_cores, r) =>
            let (ipa, r) := randint 1 254 r
            let (ipb, r) := randint 1 254 r
            let (ver, r) := randint 14 19 r
            let (dsk, r) := randint 1 4 r
            let (nc, r) := randint 1 4 r
            let (pw, r) := pyChoiceD (List.replicate 90 "poweredOn" ++ List.replicate 10 "poweredOff") "" r
            let (cd, r) := r.next
            let vm : VM :=
              { name := pyReplace h.name "ESX" "VM" ++ "-" ++ pad4 vid,
                moref := "vm-" ++ decStr vid,
                parent_host := h.moref,
                cluster_moref := h.parent_cluster,
                vcenter_moref := h.vcenter_moref,
                guest_os := os_type.name,
                vm_version := "v" ++ decStr ver,
                cpu_count := cpu_cores,
                memory_gb := memory_gb,
                disk_count := dsk,
                nic_count := nc,
                ip_addresses := network_pfx ++ "." ++ decStr ipa ++ "." ++ decStr ipb,
                power_state := pw,
                created_date := cd,
                notes := "VM for " ++ purpose.name ++ " workload" }
            let (gd, r) := generate_vm_guest_details vm r
            match vm_loop cfg h network_pfx k (vid + 1) r with
            | none => none
            | some (vms, gds, vid, r) => some (vm :: vms, gd :: gds, vid, r)

/-- `generate_vms`, recursing over the hosts: parent vCenter looked up by
moref, the region's network prefix looked up in the configuration, then
exactly `vm_capacity` VMs (each with its guest-detail record). -/
def vms_go (cfg : Config) (vcenters : List VCenter) :
    List Host → Nat → Rng → Option (List VM × List GuestDetail × Nat × Rng)
  | [], vid, r => some ([], [], vid, r)
  | h :: rest, vid, r =>
    match vcenters.find? (fun vc => vc.moref == h.vcenter_moref) with
    | none => none
    | some vc =>
      let region := get_full_region_name vc.name
      match cfg.regions.find? (fun rc => rc.name == region) with
      | none => none
      | some region_config =>
        match vm_loop cfg h region_config.network_pfx h.vm_capacity vid r with
        | none => none
        | some (vms, gds, vid, r) =>
          match vms_go cfg vcenters rest vid r with
          | none => none
          | some (vms2, gds2, vid, r) => some (vms ++ vms2, gds ++ gds2, vid, r)

/-- Post-pass B of `generate_vms` (`# After generating all VMs, update
cluster totals`): per cluster, the count of the VMs whose `cluster_moref`
matches. -/
def update_cluster_vm_totals (clusters : List Cluster) (vms : List VM) : List Cluster :=
  clusters.map (fun c =>
    { c with total_vms := (vms.filter (fun vm => vm.cluster_moref == c.moref)).length })

/-- `generate_vms`: `vm_id` starts at `1000`; the cluster list it returns
is the post-pass-B updated one. -/
def generate_vms (cfg : Config) (clusters : List Cluster) (hosts : List Host)
    (vcenters : List VCenter) (r : Rng) :
    Option (List Cluster × List VM × List GuestDetail × Rng) :=
  match vms_go cfg vcenters hosts 1000 r with
  | none => none
  | some (vms, gds, _, r) => some (update_cluster_vm_totals clusters vms, vms, gds, r)

/-- The name-to-segment association `generate_networks` scans VMs with:
`vm['name'].split('-')[2] == segment`. -/
def vmNameSeg (vm_name : String) : String :=
  (strSplit '-' vm_name).getD 2 ""

/-- `generate_portgroup(network)`: exactly one port group, inheriting the
network's parent switch, VLAN and associated-VM data; its moref reuses the
numeric part of the network's moref (`network['moref'].split('-')[1]`). -/
def generate_portgroup (net : Network) : PortGroup :=
  { name := "PG-" ++ net.name,
    moref := "pg-" ++ (strSplit '-' net.moref).getD 1 "",
    parent_vswitch := net.parent_vswitch,
    vlan_id := net.vlan_id,
    associated_vms := net.associated_vms,
    security_policy := "Promiscuous:Reject;Forged:Reject",
    traffic_shaping := "Disabled",
    teaming_policy := "Active:uplink1,uplink2;Standby:uplink3,uplink4",
    notes := net.notes }

/-- One network record of `generate_networks` (the body of the
purpose/segment loops). -/
def mkNetwork (vms : List VM) (region network_pfx purpose segment : String)
    (nid : Nat) : Network :=
  { name := region ++ "-NET-" ++ purpose ++ "-" ++ segment,
    moref := "network-" ++ decStr nid,
    parent_vswitch := "dvs-" ++ region ++ "-01",
    ip_range := network_pfx ++ "." ++ decStr (nid % 255) ++ ".0/24",
    subnet_mask := "255.255.255.0",
    gateway := network_pfx ++ "." ++ decStr (nid % 255) ++ ".1",
    associated_vms :=
      pyJoin "," (((vms.filter (fun vm => vmNameSeg vm.name == segment)).map
        (fun vm => vm.moref)).take 5),
    purpose := purpose,
    vlan_id := nid,
    notes := purpose ++ " " ++ segment ++ " network" }

/-- The inner `for segment in ['WEB', 'APP', 'DB']` loop. -/
def net_seg_loop (vms : List VM) (region network_pfx purpose : String) :
    List String → Nat → List Network × List PortGroup × Nat
  | [], nid => ([], [], nid)
  | segment :: rest, nid =>
    let net := mkNetwork vms region network_pfx purpose segment nid
    let pg := generate_portgroup net
    let (nets, pgs, nid) := net_seg_loop vms region network_pfx purpose rest (nid + 1)
    (net :: nets, pg :: pgs, nid)

/-- The outer `for purpose in ['PROD', 'DEV', 'DMZ', 'MGMT']` loop. -/
def net_purpose_loop (vms : List VM) (region network_pfx : String) :
    List String → Nat → List Network × List PortGroup × Nat
  | [], nid => ([], [], nid)
  | purpose :: rest, nid =>
    let (nets, pgs, nid) := net_seg_loop vms region network_pfx purpose ["WEB", "APP", "DB"] nid
    let (nets2, pgs2, nid) := net_purpose_loop vms region network_pfx rest nid
    (nets ++ nets2, pgs ++ pgs2, nid)

/-- `generate_networks`, recursing over the vCenters: network prefix taken
from the hardcoded `REGIONS` constant (not the configuration), then the
4 × 3 purpose/segment cross-product. -/
def networks_go (vms : List VM) : List VCenter → Nat →
    Option (List Network × List PortGroup × Nat)
  | [], nid => some ([], [], nid)
  | vc :: rest, nid =>
    match REGIONS.find? (fun e => e.1 == get_full_region_name vc.name) with
    | none => none
    | some e =>
      let (nets, pgs, nid) :=
        net_purpose_loop vms (get_full_region_name vc.name) e.2.2
          ["PROD", "DEV", "DMZ", "MGMT"] nid
      match networks_go vms rest nid with
      | none => none
      | some (nets2, pgs2, nid) => some (nets ++ nets2, pgs ++ pgs2, nid)

/-- `generate_networks`: `network_id` starts at `1000`; no randomness. -/
def generate_networks (vms : List VM) (vcenters : List VCenter) :
    Option (List Network × List PortGroup) :=
  match networks_go vms vcenters 1000 with
  | none => none
  | some (nets, pgs, _) => some (nets, pgs)

/-- `random.sample(vms, k)`: `k` distinct positions drawn without
replacement (the oracle picks each next index). -/
def pySample : List VM → Nat → Rng → List VM × Rng
  | _, 0, r => ([], r)
  | [], Nat.succ _, r => ([], r)
  | x :: xs, Nat.succ k, r =>
    let (n, r) := r.next
    let idx := n % (x :: xs).length
    let chosen := (x :: xs).getD idx x
    let (more, r) := pySample ((x :: xs).eraseIdx idx) k r
    (chosen :: more, r)

/-- The `for vm in random.sample(...)` body of `generate_nsx_tags`. -/
def tag_loop (category : String) : List VM → Nat → Rng → List NsxTag × Nat × Rng
  | [], tid, r => ([], tid, r)
  | vm :: rest, tid, r =>
    let tag : NsxTag :=
      { name := "TAG-" ++ category ++ "-" ++ decStr tid,
        moref := "tag-" ++ decStr tid,
        object_type := "VM",
        object_moref := vm.moref,
        category := category,
        value := pyFirstWord vm.notes,
        created_date := vm.created_date,
        modified_date := 0,
        notes := category ++ " tag for " ++ vm.name }
    let (more, tid, r) := tag_loop category rest (tid + 1) r
    (tag :: more, tid, r)

/-- `generate_nsx_tags`, recursing over the four tag categories: per
category a fresh ~25% sample of all VMs (`len(vms) // 4`), one tag per
sampled VM. -/
def tags_go (vms : List VM) : List String → Nat → Rng → List NsxTag × Nat × Rng
  | [], tid, r => ([], tid, r)
  | category :: rest, tid, r =>
    let (sampled, r) := pySample vms (vms.length / 4) r
    let (tags, tid, r) := tag_loop category sampled tid r
    let (more, tid, r) := tags_go vms rest tid r
    (tags ++ more, tid, r)

/-- `generate_nsx_tags`: `tag_id` starts at `1000`. -/
def generate_nsx_tags (vms : List VM) (r : Rng) : List NsxTag × Rng :=
  let (tags, _, r) := tags_go vms ["Environment", "Application", "Security", "Compliance"] 1000 r
  (tags, r)

/-- The final in-memory state of one generation run, one collection per
entity kind (the structure `export_to_csv` serialises). -/
structure GenResult where
  vcenters : List VCenter
  datacenters : List Datacenter
  clusters : List Cluster
  hosts : List Host
  host_nics : List HostNic
  vms : List VM
  vm_guest_details : List GuestDetail
  datastores : List Datastore
  datastore_clusters : List DatastoreCluster
  virtual_switches : List VirtualSwitch
  networks : List Network
  portgroups : List PortGroup
  nsx_tags : List NsxTag
deriving DecidableEq, Inhabited

/-- `generate_all`: the full pipeline in the source's phase order
(vCenters, datacenters, clusters, hosts+NICs, datastores, datastore
clusters, virtual switches, VMs+guest details — with the cluster
post-passes inside the host and VM phases — networks+port groups, NSX
tags).  `none` when a phase raises. -/
def generate_all (cfg : Config) (r : Rng) : Option GenResult :=
  let (vcs, r) := generate_vcenters r
  let (dcs, r) := generate_datacenters vcs r
  match generate_clusters cfg vcs dcs r with
  | none => none
  | some (cls0, r) =>
    match generate_hosts cfg cls0 r with
    | none => none
    | some (cls1, hosts, nics, r) =>
      match generate_datastores cfg cls1 r with
      | none => none
      | some (dss, r) =>
        let (dscs, r) := generate_datastore_clusters cls1 dss r
        let vsws := generate_virtual_switches vcs
        match generate_vms cfg cls1 hosts vcs r with
        | none => none
        | some (cls2, vms, gds, r) =>
          match generate_networks vms vcs with
          | none => none
          | some (nets, pgs) =>
            let (tags, _) := generate_nsx_tags vms r
            some { vcenters := vcs, datacenters := dcs, clusters := cls2,
                   hosts := hosts, host_nics := nics, vms := vms,
                   vm_guest_details := gds, datastores := dss,
                   datastore_clusters := dscs, virtual_switches := vsws,
                   networks := nets, portgroups := pgs, nsx_tags := tags }

/-! ## A concrete configuration and a concrete run

Witnesses and counterexamples instantiate the theorems on this minimal but
complete configuration (all five hardcoded regions present, one entry per
catalog, every range trivial) and on two oracles: `rngId` (the identity
stream) and `rngZero` (the all-zeros stream — on which every `uuid4` draw
collides). -/

/-- A minimal complete configuration for the five hardcoded regions. -/
def cfg0 : Config :=
  { size := "small",
    size_definitions := [("small", ⟨5, 1, 1⟩)],
    cluster_sizes := [("standard", [⟨"small", ⟨1, 1⟩, 1, 1⟩])],
    vm_density := [⟨"low", ⟨1, 1⟩, 1, 1⟩],
    regions :=
      [⟨"HQ-A", ⟨1, 5⟩, "10.10", "standard", 1, 1⟩,
       ⟨"HQ-B", ⟨1, 5⟩, "10.20", "standard", 1, 1⟩,
       ⟨"NA", ⟨1, 5⟩, "10.30", "standard", 1, 1⟩,
       ⟨"EU", ⟨1, 5⟩, "10.40", "standard", 1, 1⟩,
       ⟨"APAC", ⟨1, 5⟩, "10.50", "standard", 1, 1⟩],
    host_models := [⟨"PowerEdge R740", ⟨1, 1⟩, 32, 384⟩],
    os_types := [⟨"RHEL 8.6", ⟨1, 1⟩, [16], [4]⟩],
    purposes := [⟨"WEB", ⟨1, 1⟩⟩],
    datastore_sizes_gb := [2048],
    arrays := [⟨"PowerStore", ⟨1, 1⟩, ["T1000"]⟩] }

/-- The all-zeros oracle. -/
def rngZero : Rng :=
  ⟨fun _ => 0, 0⟩

/-- The concrete run every witness instantiates. -/
def res00 : GenResult :=
  (generate_all cfg0 rngZero).getD default

/-! ## Identifier and string plumbing lemmas -/

lemma str_data_append (a b : String) : (a ++ b).data = a.data ++ b.data := by
  cases a
  cases b
  rfl

lemma str_eq_of_data_eq {a b : String} (h : a.data = b.data) : a = b := by
  cases a
  cases b
  exact congrArg String.mk h

lemma str_append_left_cancel {p a b : String} (h : p ++ a = p ++ b) : a = b := by
  have h2 := congrArg String.data h
  rw [str_data_append, str_data_append] at h2
  exact str_eq_of_data_eq (List.append_cancel_left h2)

lemma decDigitsAux_digits : ∀ f n, ∀ c ∈ decDigitsAux f n, ∃ d, d < 10 ∧ c = Nat.digitChar d := by
  intro f
  induction f with
  | zero => intro n c hc; simp [decDigitsAux] at hc
  | succ f IH =>
    intro n c hc
    rw [decDigitsAux] at hc
    by_cases h10 : n < 10
    · simp [h10] at hc
      exact ⟨n, h10, hc⟩
    · simp [h10, List.mem_append] at hc
      rcases hc with hc | hc
      · exact IH (n / 10) c hc
      · exact ⟨n % 10, Nat.mod_lt n (by omega), hc⟩

lemma dash_not_mem_decDigitsAux (f n : Nat) : '-' ∉ decDigitsAux f n := by
  intro hmem
  obtain ⟨d, hd, hc⟩ := decDigitsAux_digits f n '-' hmem
  revert hc
  revert hd
  revert d
  decide

lemma decDigitsAux_ne_nil : ∀ f n, 0 < f → decDigitsAux f n ≠ [] := by
  intro f n hf
  match f with
  | Nat.succ f =>
    rw [decDigitsAux]
    by_cases h10 : n < 10
    · simp [h10]
    · simp [h10]

lemma digitChar_inj_lt : ∀ a, a < 10 → ∀ b, b < 10 → Nat.digitChar a = Nat.digitChar b → a = b := by
  decide

lemma decDigitsAux_inj : ∀ n1 n2 f1 f2, n1 < f1 → n2 < f2 →
    decDigitsAux f1 n1 = decDigitsAux f2 n2 → n1 = n2 := by
  intro n1
  induction n1 using Nat.strong_induction_on with
  | _ n1 IH =>
    intro n2 f1 f2 h1 h2 heq
    match f1, f2 with
    | Nat.succ f1, Nat.succ f2 =>
      rw [decDigitsAux, decDigitsAux] at heq
      by_cases c1 : n1 < 10 <;> by_cases c2 : n2 < 10
      · simp [c1, c2] at heq
        exact digitChar_inj_lt n1 c1 n2 c2 heq
      · simp [c1, c2] at heq
        have hlen := congrArg List.length heq
        simp only [List.length_singleton, List.length_append] at hlen
        have := decDigitsAux_ne_nil f2 (n2 / 10) (by omega)
        have hl0 : 0 < (decDigitsAux f2 (n2 / 10)).length := List.length_pos.mpr this
        omega
      · simp [c1, c2] at heq
        have hlen := congrArg List.length heq
        simp only [List.length_singleton, List.length_append] at hlen
        have := decDigitsAux_ne_nil f1 (n1 / 10) (by omega)
        have hl0 : 0 < (decDigitsAux f1 (n1 / 10)).length := List.length_pos.mpr this
        omega
      · simp [c1, c2] at heq
        have hsplit := List.append_inj' heq (by simp)
        obtain ⟨hpre, hlast⟩ := hsplit
        have hmod : n1 % 10 = n2 % 10 := by
          have := congrArg (fun l => List.getD l 0 'x') hlast
          simp at this
          exact digitChar_inj_lt (n1 % 10) (Nat.mod_lt n1 (by omega)) (n2 % 10)
            (Nat.mod_lt n2 (by omega)) this
        have hdivlt : n1 / 10 < n1 := Nat.div_lt_self (by omega) (by omega)
        have hdiv : n1 / 10 = n2 / 10 := by
          apply IH (n1 / 10) hdivlt (n2 / 10) f1 f2 (by omega)
            (by
              have : n2 / 10 < n2 := Nat.div_lt_self (by omega) (by omega)
              omega)
          exact hpre
        omega

lemma decStr_inj {m n : Nat} (h : decStr m = decStr n) : m = n := by
  have h2 := congrArg String.data h
  exact decDigitsAux_inj m n (m + 1) (n + 1) (Nat.lt_succ_self m) (Nat.lt_succ_self n) h2

lemma pfx_decStr_inj (p : String) : Function.Injective (fun m => p ++ decStr m) := by
  intro m n h
  exact decStr_inj (str_append_left_cancel h)

lemma nodup_pfx_range (p : String) (s n : Nat) :
    ((List.range' s n).map (fun m => p ++ decStr m)).Nodup := by
  apply List.Nodup.map (pfx_decStr_inj p)
  exact @List.nodup_range' s n 1 (by omega)

lemma range'_map_append (f : Nat → α) (s m n : Nat) :
    (List.range' s m).map f ++ (List.range' (s + m) n).map f =
      (List.range' s (m + n)).map f := by
  rw [← List.map_append]
  congr 1
  rw [Nat.add_comm m n]
  exact List.range'_append_1 s m n

lemma dash_split_cancel : ∀ (a a' b b' : List Char), '-' ∉ a → '-' ∉ a' →
    a ++ '-' :: b = a' ++ '-' :: b' → a = a' ∧ b = b' := by
  intro a
  induction a with
  | nil =>
    intro a' b b' _ ha' h
    cases a' with
    | nil => simpa using h
    | cons c t =>
      simp at h
      obtain ⟨hc, _⟩ := h
      exact absurd (hc ▸ List.mem_cons_self c t) ha'
  | cons c t IH =>
    intro a' b b' ha ha' h
    cases a' with
    | nil =>
      simp at h
      obtain ⟨hc, _⟩ := h
      exact absurd (hc ▸ List.mem_cons_self c t) ha
    | cons c' t' =>
      simp at h
      obtain ⟨hc, ht⟩ := h
      have hta : '-' ∉ t := fun hm => ha (List.mem_cons_of_mem c hm)
      have hta' : '-' ∉ t' := fun hm => ha' (List.mem_cons_of_mem c' hm)
      obtain ⟨h1, h2⟩ := IH t' b b' hta hta' ht
      exact ⟨by rw [hc, h1], h2⟩

lemma pySplitCh_no_sep (sep : Char) : ∀ a, sep ∉ a → pySplitCh sep a = [a] := by
  intro a
  induction a with
  | nil => intro _; rfl
  | cons c t IH =>
    intro h
    have hct : sep ∉ t := fun hm => h (List.mem_cons_of_mem c hm)
    have hne : c ≠ sep := fun hc => h (hc ▸ List.mem_cons_self c t)
    rw [pySplitCh, IH hct]
    simp [hne]

lemma pySplitCh_append (sep : Char) : ∀ a b, sep ∉ a →
    pySplitCh sep (a ++ sep :: b) = a :: pySplitCh sep b := by
  intro a
  induction a with
  | nil =>
    intro b _
    rw [List.nil_append, pySplitCh]
    cases hb : pySplitCh sep b with
    | nil =>
      exfalso
      cases b with
      | nil => simp [pySplitCh] at hb
      | cons c t =>
        rw [pySplitCh] at hb
        revert hb
        cases pySplitCh sep t with
        | nil => intro hb; simp at hb
        | cons h2 t2 =>
          intro hb
          by_cases hc : c = sep <;> simp [hc] at hb
    | cons h2 t2 => simp
  | cons c t IH =>
    intro b h
    have hct : sep ∉ t := fun hm => h (List.mem_cons_of_mem c hm)
    have hne : c ≠ sep := fun hc => h (hc ▸ List.mem_cons_self c t)
    rw [List.cons_append, pySplitCh, IH b hct]
    simp [hne]

lemma strSplit_moref_pfx (w : String) (hw : '-' ∉ w.data) (m : Nat) :
    strSplit '-' (w ++ "-" ++ decStr m) = [w, decStr m] := by
  have hdata : (w ++ "-" ++ decStr m).data = w.data ++ '-' :: decDigitsAux (m + 1) m := by
    rw [str_data_append, str_data_append]
    simp [decStr]
  rw [strSplit, hdata, pySplitCh_append '-' w.data _ hw,
    pySplitCh_no_sep '-' _ (dash_not_mem_decDigitsAux (m + 1) m)]
  simp [decStr]

lemma generate_portgroup_moref (net : Network) (m : Nat)
    (h : net.moref = "network-" ++ decStr m) :
    (generate_portgroup net).moref = "pg-" ++ decStr m := by
  have hsplit : strSplit '-' net.moref = ["network", decStr m] := by
    rw [h]
    have : ("network-" : String) ++ decStr m = "network" ++ "-" ++ decStr m := by
      apply str_eq_of_data_eq
      rw [str_data_append, str_data_append, str_data_append]
      rfl
    rw [this]
    exact strSplit_moref_pfx "network" (by decide) m
  rw [generate_portgroup]
  simp [hsplit]

lemma randint_bounds (a b : Nat) (r : Rng) (hab : a ≤ b) :
    a ≤ (randint a b r).1 ∧ (randint a b r).1 ≤ b := by
  rw [randint, Rng.next]
  have : (r.stream r.pos) % (b - a + 1) < b - a + 1 := Nat.mod_lt _ (by omega)
  constructor
  · exact Nat.le_add_right a _
  · simp only []
    omega

lemma pyChoiceD_mem (l : List String) (d : String) (r : Rng) (hl : l ≠ []) :
    (pyChoiceD l d r).1 ∈ l := by
  rw [pyChoiceD, Rng.next]
  have hlen : 0 < l.length := List.length_pos.mpr hl
  have hlt : (r.stream r.pos) % l.length < l.length := Nat.mod_lt _ hlen
  simp only []
  rw [List.getD_eq_getElem l d hlt]
  exact List.getElem_mem hlt

lemma pyChoiceOpt_mem {l : List α} {r : Rng} {x : α} {r' : Rng}
    (h : pyChoiceOpt l r = some (x, r')) : x ∈ l := by
  match l with
  | [] => simp [pyChoiceOpt] at h
  | y :: ys =>
    rw [pyChoiceOpt] at h
    simp at h
    obtain ⟨hx, _⟩ := h
    have hlt : r.next.1 % (ys.length + 1) < (y :: ys).length :=
      Nat.mod_lt _ (by omega)
    rw [List.getElem?_eq_getElem hlt] at hx
    simp at hx
    rw [← hx]
    exact List.getElem_mem hlt

lemma pyChoiceNat_mem {l : List Nat} {r : Rng} {x : Nat} {r' : Rng}
    (h : pyChoiceNat l r = some (x, r')) : x ∈ l := by
  match l with
  | [] => simp [pyChoiceNat] at h
  | y :: ys =>
    rw [pyChoiceNat] at h
    simp at h
    obtain ⟨hx, _⟩ := h
    have hlt : r.next.1 % (ys.length + 1) < (y :: ys).length :=
      Nat.mod_lt _ (by omega)
    rw [List.getElem?_eq_getElem hlt] at hx
    simp at hx
    rw [← hx]
    exact List.getElem_mem hlt

lemma power_state_cases (r : Rng) :
    (pyChoiceD (List.replicate 90 "poweredOn" ++ List.replicate 10 "poweredOff") "" r).1 =
      "poweredOn" ∨
    (pyChoiceD (List.replicate 90 "poweredOn" ++ List.replicate 10 "poweredOff") "" r).1 =
      "poweredOff" := by
  have hmem := pyChoiceD_mem (List.replicate 90 "poweredOn" ++ List.replicate 10 "poweredOff")
    "" r (by simp)
  rw [List.mem_append] at hmem
  rcases hmem with hmem | hmem
  · exact Or.inl (List.eq_of_mem_replicate hmem)
  · exact Or.inr (List.eq_of_mem_replicate hmem)

/-! ## Configuration resolution: concrete configurations

Small complete configurations exercising `load_config`.  Sections the
resolver never reads are left empty. -/

/-- The spec's determinism profile: `{total_vms: 1000, avg_vms_per_host: 20,
max_hosts_per_cluster: 10}`, one region of weight `1.0`. -/
def cfgProfile : Config :=
  { size := "prod",
    size_definitions := [("prod", ⟨1000, 20, 10⟩)],
    cluster_sizes := [],
    vm_density := [],
    regions := [⟨"R1", ⟨1, 1⟩, "10.10", "standard", 0, 0⟩],
    host_models := [],
    os_types := [],
    purposes := [],
    datastore_sizes_gb := [],
    arrays := [] }

/-- Two regions of weights `0.625`/`0.375` with the size profile
`{total_vms: 30, avg_vms_per_host: 20, max_hosts_per_cluster: 10}` (all
values exactly representable in binary floating point, and the float and
exact computations agree on them). -/
def cfgC3 : Config :=
  { cfgProfile with
    size := "s",
    size_definitions := [("s", ⟨30, 20, 10⟩)],
    regions :=
      [⟨"R1", ⟨5, 8⟩, "10.10", "standard", 0, 0⟩,
       ⟨"R2", ⟨3, 8⟩, "10.20", "standard", 0, 0⟩] }

/-- The resolver's output on `cfgC3`. -/
def resolvedC3 : Config :=
  (load_config cfgC3).toOption.getD default

/-- A single region of weight `0.90`. -/
def cfg09 : Config :=
  { cfgProfile with regions := [⟨"R1", ⟨9, 10⟩, "10.10", "standard", 0, 0⟩] }

/-- Region weights summing to `1.0`, but VM-purpose weights summing to
`0.5`, OS-type weights summing to `3.0` and a cluster-size table summing
to `0.5`. -/
def cfgC4 : Config :=
  { cfgProfile with
    cluster_sizes := [("standard", [⟨"small", ⟨1, 2⟩, 1, 2⟩])],
    os_types := [⟨"RHEL 8.6", ⟨3, 1⟩, [16], [4]⟩],
    purposes := [⟨"WEB", ⟨1, 2⟩⟩] }

/-- Two regions sharing the network prefix value `10.10` (weights sum to
`1.0`). -/
def cfgC5 : Config :=
  { cfgProfile with
    regions :=
      [⟨"R1", ⟨1, 2⟩, "10.10", "standard", 0, 0⟩,
       ⟨"R2", ⟨1, 2⟩, "10.10", "standard", 0, 0⟩] }

/-! ## Configuration resolution: theorems (claims C3, C4, C5) -/

/-- C3, counterexample: on a validated two-region configuration (weights
`0.625` + `0.375`, size profile `{30, 20, 10}`) the resolver sets the first
region's `calculated_hosts` to `2`, while the claim's formula
`ceil(total_vms / avg_vms_per_host * weight)` evaluates to
`ceil(30 / 20 * 0.625) = ceil(0.9375) = 1`.  (The code first rounds
`total_hosts = ceil(30 / 20) = 2` and only then applies the region weight.) -/
theorem C3_formula_counterexample :
    (load_config cfgC3).toOption.map
        (fun c => c.regions.map (fun rc => rc.calculated_hosts)) = some [2, 1] ∧
    qCeilN (qMul (qOfDiv 30 20) ⟨5, 8⟩) = 1 := by
  decide

/-- C3, amended: for every region of a validated configuration the resolver
sets `calculated_hosts = ceil(ceil(total_vms / avg_vms_per_host) * weight)`
— the total host count is rounded up before the region weight is applied —
and `calculated_clusters = ceil(calculated_hosts / max_hosts_per_cluster)`;
on the profile `{1000, 20, 10}` with a single region of weight `1.0` this
yields `calculated_hosts = 50` and `calculated_clusters = 5`. -/
theorem C3_derived_values :
    (∀ cfg cfg', load_config cfg = Except.ok cfg' →
      ∃ sz, cfg.size_definitions.lookup cfg.size = some sz ∧
        cfg'.regions = cfg.regions.map (fun rc =>
          { rc with
            calculated_hosts :=
              qCeilN (qMul (qOfNat (qCeilN (qOfDiv sz.total_vms sz.avg_vms_per_host)))
                rc.weight),
            calculated_clusters :=
              qCeilN (qOfDiv
                (qCeilN (qMul (qOfNat (qCeilN (qOfDiv sz.total_vms sz.avg_vms_per_host)))
                  rc.weight))
                sz.max_hosts_per_cluster) })) ∧
    (load_config cfgProfile).toOption.map
        (fun c => c.regions.map (fun rc => (rc.calculated_hosts, rc.calculated_clusters))) =
      some [(50, 5)] := by
  constructor
  · intro cfg cfg' h
    rw [load_config] at h
    split at h
    · exact absurd h (by simp)
    · next sz hlk =>
      refine ⟨sz, hlk, ?_⟩
      simp only [calculate_derived_values] at h
      split at h
      · exact absurd h (by simp)
      · have := Except.ok.inj h
        rw [← this]
  · decide

/-- C3, witness: the amended formula instantiated on the concrete
two-region configuration. -/
theorem C3_derived_values_witness :
    ∃ sz, cfgC3.size_definitions.lookup cfgC3.size = some sz ∧
      resolvedC3.regions = cfgC3.regions.map (fun rc =>
        { rc with
          calculated_hosts :=
            qCeilN (qMul (qOfNat (qCeilN (qOfDiv sz.total_vms sz.avg_vms_per_host)))
              rc.weight),
          calculated_clusters :=
            qCeilN (qOfDiv
              (qCeilN (qMul (qOfNat (qCeilN (qOfDiv sz.total_vms sz.avg_vms_per_host)))
                rc.weight))
              sz.max_hosts_per_cluster) }) :=
  C3_derived_values.1 cfgC3 resolvedC3 (by rfl)

/-- C4, counterexample: a configuration whose VM-purpose weights sum to
`0.5`, whose OS-type weights sum to `3.0` and whose cluster-size-category
weights sum to `0.5` is accepted by resolution (only the region table is
ever checked; the `validate_config` method containing a purpose-table check
is never invoked by the program). -/
theorem C4_unchecked_tables_counterexample :
    qSum (cfgC4.purposes.map (fun p => p.weight)) = ⟨1, 2⟩ ∧
    qSum (cfgC4.os_types.map (fun o => o.weight)) = ⟨3, 1⟩ ∧
    (cfgC4.cluster_sizes.lookup "standard").map
        (fun l => qSum (l.map (fun c => c.weight))) = some ⟨1, 2⟩ ∧
    (load_config cfgC4).isOk = true := by
  decide

/-- C4, amended: during resolution only the region weight table is
validated — resolution (with a valid size key) succeeds exactly when the
region weights sum into `[0.99, 1.01]`, irrespective of the purpose,
OS-type and cluster-size tables; a region table summing to `0.90` is
rejected with the region-weight error, one summing to `1.00` is accepted. -/
theorem C4_weight_validation :
    (∀ cfg sz, cfg.size_definitions.lookup cfg.size = some sz →
      ((load_config cfg).isOk = true ↔
        (qLe ⟨99, 100⟩ (qSum (cfg.regions.map (fun rc => rc.weight))) ∧
         qLe (qSum (cfg.regions.map (fun rc => rc.weight))) ⟨101, 100⟩))) ∧
    load_config cfg09 = Except.error "Region weights must sum to 1.0" ∧
    (load_config cfgProfile).isOk = true := by
  refine ⟨?_, by rfl, by decide⟩
  intro cfg sz hlk
  rw [load_config]
  rw [hlk]
  simp only [calculate_derived_values]
  by_cases hw : qLe ⟨99, 100⟩ (qSum (cfg.regions.map (fun rc => rc.weight))) ∧
      qLe (qSum (cfg.regions.map (fun rc => rc.weight))) ⟨101, 100⟩
  · simp [hw]
    rfl
  · simp [hw]
    rfl

/-- C4, witness: the validation equivalence instantiated on the accepted
profile configuration. -/
theorem C4_weight_validation_witness :
    (load_config cfgProfile).isOk = true ↔
      (qLe ⟨99, 100⟩ (qSum (cfgProfile.regions.map (fun rc => rc.weight))) ∧
       qLe (qSum (cfgProfile.regions.map (fun rc => rc.weight))) ⟨101, 100⟩) :=
  C4_weight_validation.1 cfgProfile ⟨1000, 20, 10⟩ (by rfl)

/-- C5: a configuration in which two regions share the network prefix value
`10.10` resolves successfully — no duplicate-prefix check runs during
resolution (the check exists only inside the never-invoked
`validate_config` method), although the claim requires resolution to fail
with a `DuplicateNetworkPrefix` error. -/
theorem C5_duplicate_pfx_accepted :
    cfgC5.regions.map (fun rc => rc.network_pfx) = ["10.10", "10.10"] ∧
    ¬ (cfgC5.regions.map (fun rc => rc.network_pfx)).Nodup ∧
    (load_config cfgC5).isOk = true := by
  decide

/-! ## Characterisation of the generated collections

Each stateful generator is characterised by induction over its input list:
the identifiers it assigns are the decimal renderings of consecutive
counter values, and every record's parent fields and sampled attributes
satisfy the stated structural facts. -/

lemma cluster_loop_spec (dc : Datacenter) (region : String) (dist : List ClusterSizeCat) :
    ∀ k i cid r out, cluster_loop dc region dist i k cid r = some out →
      out.1.length = k ∧ out.2.1 = cid + k ∧
      out.1.map (fun c => c.moref) =
        (List.range' cid k).map (fun m => "domain-c" ++ decStr m) := by
  intro k
  induction k with
  | zero =>
    intro i cid r out h
    rw [cluster_loop] at h
    have := Option.some.inj h
    rw [← this]
    simp
  | succ k IH =>
    intro i cid r out h
    rw [cluster_loop] at h
    split at h
    · exact absurd h (by simp)
    · next cat r1 hc =>
      split at h
      next th r2 hrand =>
      split at h
      · exact absurd h (by simp)
      · next more cid2 r3 hrec =>
        obtain ⟨IH1, IH2, IH3⟩ := IH (i + 1) (cid + 1) _ _ hrec
        simp only [Prod.fst, Prod.snd] at IH1 IH2 IH3
        have hout := Option.some.inj h
        rw [← hout]
        refine ⟨?_, ?_, ?_⟩
        · show more.length + 1 = k + 1
          omega
        · show cid2 = cid + (k + 1)
          omega
        · show _ :: List.map (fun c => c.moref) more = _
          rw [List.range'_succ, List.map_cons, IH3]

lemma clusters_go_spec (cfg : Config) (vcs : List VCenter) :
    ∀ dcs cid r out, clusters_go cfg vcs dcs cid r = some out →
      out.2.1 = cid + out.1.length ∧
      out.1.map (fun c => c.moref) =
        (List.range' cid out.1.length).map (fun m => "domain-c" ++ decStr m) := by
  intro dcs
  induction dcs with
  | nil =>
    intro cid r out h
    rw [clusters_go] at h
    have := Option.some.inj h
    rw [← this]
    simp
  | cons dc rest IH =>
    intro cid r out h
    rw [clusters_go] at h
    split at h
    · exact absurd h (by simp)
    · next vc hvc =>
      simp only [] at h
      split at h
      · exact absurd h (by simp)
      · next region_config hrc =>
        split at h
        · exact absurd h (by simp)
        · next dist hdist =>
          split at h
          · exact absurd h (by simp)
          · next cls cid1 r1 hloop =>
            split at h
            · exact absurd h (by simp)
            · next more cid2 r2 hrest =>
              obtain ⟨hl1, hl2, hl3⟩ := cluster_loop_spec dc _ dist _ _ _ _ _ hloop
              simp only [Prod.fst, Prod.snd] at hl1 hl2 hl3
              obtain ⟨hr1, hr2⟩ := IH _ _ _ hrest
              simp only [Prod.fst, Prod.snd] at hr1 hr2
              have hout := Option.some.inj h
              rw [← hout]
              refine ⟨?_, ?_⟩
              · show cid2 = cid + (cls ++ more).length
                rw [List.length_append]
                omega
              · show List.map (fun c => c.moref) (cls ++ more) =
                  (List.range' cid (cls ++ more).length).map (fun m => "domain-c" ++ decStr m)
                have hcc : region_config.calculated_clusters = cls.length := hl1.symm
                rw [hcc] at hl3 hl2
                rw [List.length_append, List.map_append, hl3, hr2, hl2]
                exact range'_map_append _ cid cls.length more.length

lemma generate_clusters_spec (cfg : Config) (vcs : List VCenter)
    (dcs : List Datacenter) (r : Rng) (cls : List Cluster) (r' : Rng)
    (h : generate_clusters cfg vcs dcs r = some (cls, r')) :
    cls.map (fun c => c.moref) =
      (List.range' 1000 cls.length).map (fun m => "domain-c" ++ decStr m) := by
  rw [generate_clusters] at h
  split at h
  · exact absurd h (by simp)
  · next cls1 cid1 r1 hgo =>
    obtain ⟨_, h3⟩ := clusters_go_spec cfg vcs dcs 1000 r _ hgo
    simp only [Prod.fst, Prod.snd] at h3
    have hout := Option.some.inj h
    have hcls : cls = cls1 := (congrArg Prod.fst hout).symm
    rw [hcls]
    exact h3

lemma nic_loop_spec (hst : Host) : ∀ k i r out, nic_loop hst i k r = out →
    out.1.map (fun nc => nc.moref) =
      (List.range' i k).map (fun j => "nic-" ++ hst.moref ++ "-" ++ decStr j) ∧
    ∀ nc ∈ out.1, nc.parent_host = hst.moref := by
  intro k
  induction k with
  | zero =>
    intro i r out h
    rw [nic_loop] at h
    rw [← h]
    simp
  | succ k IH =>
    intro i r out h
    rw [nic_loop] at h
    simp only [] at h
    subst h
    constructor
    · simp only [Prod.fst, List.map_cons, List.range'_succ]
      refine congrArg₂ List.cons rfl ?_
      exact (IH (i + 1) _ _ rfl).1
    · intro nc hnc
      rcases List.mem_cons.mp hnc with hnc | hnc
      · rw [hnc]
      · exact (IH (i + 1) _ _ rfl).2 nc hnc

lemma host_loop_spec (cl : Cluster) (model : HostModel) (dmin dmax : Nat) :
    ∀ k i hid r out, host_loop cl model dmin dmax i k hid r = out →
      out.1.map (fun hh => hh.moref) =
        (List.range' hid k).map (fun m => "host-" ++ decStr m) ∧
      out.1.length = k ∧
      out.2.2.1 = hid + k ∧
      (∀ hh ∈ out.1, hh.parent_cluster = cl.moref ∧ hh.vcenter_moref = cl.parent_vcenter ∧
        hh.model = model.name ∧ hh.cpu_cores = model.cpu_cores ∧
        hh.memory_gb = model.memory_gb ∧ hh.nic_count = 8 ∧
        (dmin ≤ dmax → dmin ≤ hh.vm_capacity ∧ hh.vm_capacity ≤ dmax)) ∧
      out.2.1.map (fun nc => nc.moref) =
        out.1.flatMap (fun hh =>
          (List.range' 0 hh.nic_count).map (fun j => "nic-" ++ hh.moref ++ "-" ++ decStr j)) ∧
      (∀ nc ∈ out.2.1, ∃ hh ∈ out.1, nc.parent_host = hh.moref) := by
  intro k
  induction k with
  | zero =>
    intro i hid r out h
    rw [host_loop] at h
    subst h
    simp
  | succ k IH =>
    intro i hid r out h
    rw [host_loop] at h
    simp only [] at h
    subst h
    obtain ⟨IH1, IH2, IH3, IH4, IH5, IH6⟩ := IH (i + 1) (hid + 1) _ _ rfl
    refine ⟨?_, ?_, ?_, ?_, ?_, ?_⟩
    · simp only [Prod.fst, List.map_cons, List.range'_succ]
      exact congrArg₂ List.cons rfl IH1
    · simp only [Prod.fst, List.length_cons]
      rw [IH2]
    · simp only [Prod.fst, Prod.snd]
      rw [IH3]
      omega
    · intro hh hmem
      rcases List.mem_cons.mp hmem with hmem | hmem
      · subst hmem
        refine ⟨rfl, rfl, rfl, rfl, rfl, rfl, fun hdd => ?_⟩
        exact randint_bounds dmin dmax _ hdd
      · exact IH4 hh hmem
    · simp only [Prod.fst, Prod.snd, List.map_append, List.flatMap_cons, IH5]
      refine congrArg₂ (· ++ ·) ?_ rfl
      exact (nic_loop_spec _ _ 0 _ _ rfl).1
    · intro nc hmem
      rcases List.mem_append.mp hmem with hmem | hmem
      · refine ⟨_, List.mem_cons_self _ _, ?_⟩
        exact (nic_loop_spec _ _ 0 _ _ rfl).2 nc hmem
      · obtain ⟨hh, hh1, hh2⟩ := IH6 nc hmem
        exact ⟨hh, List.mem_cons_of_mem _ hh1, hh2⟩

lemma hosts_go_spec (cfg : Config) :
    ∀ cls hid r hs ns hid2 rr, hosts_go cfg cls hid r = some (hs, ns, hid2, rr) →
      hs.map (fun hh => hh.moref) =
        (List.range' hid hs.length).map (fun m => "host-" ++ decStr m) ∧
      hid2 = hid + hs.length ∧
      (∀ hh ∈ hs, ∃ c ∈ cls, hh.parent_cluster = c.moref) ∧
      ((cls.map (fun c => c.moref)).Nodup →
        ∀ c ∈ cls,
          (hs.filter (fun hh => hh.parent_cluster == c.moref)).length = c.total_hosts ∧
          ∃ model ∈ cfg.host_models, ∃ dens ∈ cfg.vm_density,
            ∀ hh ∈ hs, hh.parent_cluster = c.moref →
              hh.model = model.name ∧ hh.cpu_cores = model.cpu_cores ∧
              hh.memory_gb = model.memory_gb ∧
              (dens.range_min ≤ dens.range_max →
                dens.range_min ≤ hh.vm_capacity ∧ hh.vm_capacity ≤ dens.range_max)) ∧
      ns.map (fun nc => nc.moref) =
        hs.flatMap (fun hh =>
          (List.range' 0 hh.nic_count).map (fun j => "nic-" ++ hh.moref ++ "-" ++ decStr j)) ∧
      (∀ nc ∈ ns, ∃ hh ∈ hs, nc.parent_host = hh.moref) := by
  intro cls
  induction cls with
  | nil =>
    intro hid r hs ns hid2 rr h
    rw [hosts_go] at h
    simp only [Option.some.injEq, Prod.mk.injEq] at h
    obtain ⟨h1, h2, h3, h4⟩ := h
    subst h1
    subst h2
    subst h3
    simp
  | cons cl rest IH =>
    intro hid r hs ns hid2 rr h
    rw [hosts_go] at h
    split at h
    · exact absurd h (by simp)
    · next dens r1 hdens =>
      split at h
      · exact absurd h (by simp)
      · next model r2 hmodel =>
        simp only [] at h
        split at h
        · exact absurd h (by simp)
        · next hs2 ns2 hidB rB hrec =>
          simp only [Option.some.injEq, Prod.mk.injEq] at h
          obtain ⟨h1, h2, h3, h4⟩ := h
          subst h1
          subst h2
          subst h3
          obtain ⟨hl1, hl2, hl3, hl4, hl5, hl6⟩ :=
            host_loop_spec cl model dens.range_min dens.range_max cl.total_hosts 0 hid r2 _ rfl
          obtain ⟨ih1, ih2, ih3, ih4, ih5, ih6⟩ := IH _ _ _ _ _ _ hrec
          have hblk_parent : ∀ hh ∈ (host_loop cl model dens.range_min dens.range_max 0
              cl.total_hosts hid r2).1, hh.parent_cluster = cl.moref :=
            fun hh hm => (hl4 hh hm).1
          refine ⟨?_, ?_, ?_, ?_, ?_, ?_⟩
          · rw [List.map_append, List.length_append, hl1, ih1, hl3, hl2]
            exact range'_map_append _ hid cl.total_hosts hs2.length
          · rw [List.length_append, ih2, hl3, hl2]
            omega
          · intro hh hmem
            rcases List.mem_append.mp hmem with hmem | hmem
            · exact ⟨cl, List.mem_cons_self cl rest, hblk_parent hh hmem⟩
            · obtain ⟨c, hc1, hc2⟩ := ih3 hh hmem
              exact ⟨c, List.mem_cons_of_mem cl hc1, hc2⟩
          · intro hnd c hc
            rw [List.map_cons, List.nodup_cons] at hnd
            obtain ⟨hnd1, hnd2⟩ := hnd
            have htail_ne : ∀ hh ∈ hs2, hh.parent_cluster ≠ cl.moref := by
              intro hh hm hcontra
              obtain ⟨c', hc'1, hc'2⟩ := ih3 hh hm
              exact hnd1 (List.mem_map.mpr ⟨c', hc'1, by rw [← hc'2, hcontra]⟩)
            rcases List.mem_cons.mp hc with hceq | hc
            · rw [hceq]
              constructor
              · rw [List.filter_append]
                have hfb : (host_loop cl model dens.range_min dens.range_max 0
                    cl.total_hosts hid r2).1.filter
                      (fun hh => hh.parent_cluster == cl.moref) =
                    (host_loop cl model dens.range_min dens.range_max 0
                      cl.total_hosts hid r2).1 :=
                  List.filter_eq_self.mpr (fun hh hm => by
                    show (hh.parent_cluster == cl.moref) = true
                    exact beq_iff_eq.mpr (hblk_parent hh hm))
                have hft : hs2.filter (fun hh => hh.parent_cluster == cl.moref) = [] := by
                  rw [List.filter_eq_nil_iff]
                  intro hh hm
                  exact fun hx => htail_ne hh hm (beq_iff_eq.mp hx)
                rw [hfb, hft, List.length_append, hl2]
                simp
              · refine ⟨model, pyChoiceOpt_mem hmodel, dens, pyChoiceOpt_mem hdens, ?_⟩
                intro hh hmem hpar
                rcases List.mem_append.mp hmem with hmem | hmem
                · obtain ⟨_, _, hm3, hm4, hm5, _, hm7⟩ := hl4 hh hmem
                  exact ⟨hm3, hm4, hm5, hm7⟩
                · exact absurd hpar (htail_ne hh hmem)
            · have hcl_ne : cl.moref ≠ c.moref := by
                intro hcontra
                exact hnd1 (List.mem_map.mpr ⟨c, hc, hcontra.symm⟩)
              have hfb : (host_loop cl model dens.range_min dens.range_max 0
                  cl.total_hosts hid r2).1.filter
                    (fun hh => hh.parent_cluster == c.moref) = [] := by
                rw [List.filter_eq_nil_iff]
                intro hh hm
                refine fun hx => hcl_ne ?_
                rw [← hblk_parent hh hm]
                exact beq_iff_eq.mp hx
              obtain ⟨ihc1, ihc2⟩ := ih4 hnd2 c hc
              constructor
              · rw [List.filter_append, hfb, List.nil_append]
                exact ihc1
              · obtain ⟨model', hmo1, dens', hde1, hrest⟩ := ihc2
                refine ⟨model', hmo1, dens', hde1, ?_⟩
                intro hh hmem hpar
                rcases List.mem_append.mp hmem with hmem | hmem
                · rw [hblk_parent hh hmem] at hpar
                  exact absurd hpar hcl_ne
                · exact hrest hh hmem hpar
          · rw [List.map_append, List.flatMap_append]
            exact congrArg₂ (· ++ ·) hl5 ih5
          · intro nc hmem
            rcases List.mem_append.mp hmem with hmem | hmem
            · obtain ⟨hh, hh1, hh2⟩ := hl6 nc hmem
              exact ⟨hh, List.mem_append_left _ hh1, hh2⟩
            · obtain ⟨hh, hh1, hh2⟩ := ih6 nc hmem
              exact ⟨hh, List.mem_append_right _ hh1, hh2⟩

lemma generate_vm_guest_details_spec (vm : VM) (r : Rng) :
    (generate_vm_guest_details vm r).1.vm_moref = vm.moref ∧
    (vm.power_state = "poweredOff" →
      (generate_vm_guest_details vm r).1.uptime = 0 ∧
      (generate_vm_guest_details vm r).1.cpu_usage = 0 ∧
      (generate_vm_guest_details vm r).1.memory_usage = 0 ∧
      (generate_vm_guest_details vm r).1.tools_status = "Not Running" ∧
      (generate_vm_guest_details vm r).1.guest_state = "Stopped") ∧
    (vm.power_state = "poweredOn" →
      1 ≤ (generate_vm_guest_details vm r).1.uptime ∧
      20 ≤ (generate_vm_guest_details vm r).1.cpu_usage ∧
      40 ≤ (generate_vm_guest_details vm r).1.memory_usage ∧
      (generate_vm_guest_details vm r).1.tools_status = "Running Current" ∧
      (generate_vm_guest_details vm r).1.guest_state = "Running") := by
  by_cases hpw : vm.power_state = "poweredOn"
  · refine ⟨rfl, ?_, ?_⟩
    · intro hoff
      rw [hpw] at hoff
      exact absurd hoff (by decide)
    · intro _
      rw [generate_vm_guest_details]
      simp only [hpw]
      simp
      refine ⟨(randint_bounds 1 400 _ (by omega)).1, ?_, ?_⟩
      · exact (randint_bounds 20 80 _ (by omega)).1
      · exact (randint_bounds 40 90 _ (by omega)).1
  · refine ⟨rfl, ?_, ?_⟩
    · intro _
      rw [generate_vm_guest_details]
      simp only [hpw]
      simp
    · intro hon
      exact absurd hon hpw

lemma vm_loop_spec (cfg : Config) (hst : Host) (npfx : String) :
    ∀ k vid r vms gds vid2 rr, vm_loop cfg hst npfx k vid r = some (vms, gds, vid2, rr) →
      vms.map (fun vm => vm.moref) =
        (List.range' vid k).map (fun m => "vm-" ++ decStr m) ∧
      vms.length = k ∧
      vid2 = vid + k ∧
      (∀ vm ∈ vms, vm.parent_host = hst.moref ∧ vm.cluster_moref = hst.parent_cluster ∧
        vm.vcenter_moref = hst.vcenter_moref) ∧
      List.Forall₂ (fun vm gd =>
        gd.vm_moref = vm.moref ∧
        (vm.power_state = "poweredOn" ∨ vm.power_state = "poweredOff") ∧
        (vm.power_state = "poweredOff" →
          gd.uptime = 0 ∧ gd.cpu_usage = 0 ∧ gd.memory_usage = 0 ∧
          gd.tools_status = "Not Running" ∧ gd.guest_state = "Stopped") ∧
        (vm.power_state = "poweredOn" →
          1 ≤ gd.uptime ∧ 20 ≤ gd.cpu_usage ∧ 40 ≤ gd.memory_usage ∧
          gd.tools_status = "Running Current" ∧ gd.guest_state = "Running")) vms gds := by
  intro k
  induction k with
  | zero =>
    intro vid r vms gds vid2 rr h
    rw [vm_loop] at h
    simp only [Option.some.injEq, Prod.mk.injEq] at h
    obtain ⟨h1, h2, h3, _⟩ := h
    subst h1
    subst h2
    subst h3
    simp
  | succ k IH =>
    intro vid r vms gds vid2 rr h
    rw [vm_loop] at h
    split at h
    · exact absurd h (by simp)
    · next os_type r1 hos =>
      split at h
      · exact absurd h (by simp)
      · next purpose r2 hpur =>
        split at h
        · exact absurd h (by simp)
        · next memory_gb r3 hmem =>
          split at h
          · exact absurd h (by simp)
          · next cpu_cores r4 hcpu =>
            simp only [] at h
            split at h
            · exact absurd h (by simp)
            · next vms2 gds2 vidB rB hrec =>
              simp only [Option.some.injEq, Prod.mk.injEq] at h
              obtain ⟨h1, h2, h3, _⟩ := h
              subst h1
              subst h2
              subst h3
              obtain ⟨ih1, ih2, ih3, ih4, ih5⟩ := IH _ _ _ _ _ _ hrec
              refine ⟨?_, ?_, ?_, ?_, ?_⟩
              · rw [List.map_cons, List.range'_succ, List.map_cons]
                exact congrArg₂ List.cons rfl ih1
              · rw [List.length_cons, ih2]
              · rw [ih3]
                omega
              · intro vm hmem2
                rcases List.mem_cons.mp hmem2 with hmem2 | hmem2
                · rw [hmem2]
                  exact ⟨rfl, rfl, rfl⟩
                · exact ih4 vm hmem2
              · refine List.Forall₂.cons ?_ ih5
                refine ⟨(generate_vm_guest_details_spec _ _).1, ?_,
                  (generate_vm_guest_details_spec _ _).2.1,
                  (generate_vm_guest_details_spec _ _).2.2⟩
                exact power_state_cases _

lemma vms_go_spec (cfg : Config) (vcs : List VCenter) :
    ∀ hosts vid r vms gds vid2 rr, vms_go cfg vcs hosts vid r = some (vms, gds, vid2, rr) →
      vms.map (fun vm => vm.moref) =
        (List.range' vid vms.length).map (fun m => "vm-" ++ decStr m) ∧
      vid2 = vid + vms.length ∧
      (∀ vm ∈ vms, ∃ hh ∈ hosts, vm.parent_host = hh.moref ∧
        vm.cluster_moref = hh.parent_cluster) ∧
      ((hosts.map (fun hh => hh.moref)).Nodup →
        ∀ hh ∈ hosts,
          (vms.filter (fun vm => vm.parent_host == hh.moref)).length = hh.vm_capacity) ∧
      List.Forall₂ (fun vm gd =>
        gd.vm_moref = vm.moref ∧
        (vm.power_state = "poweredOn" ∨ vm.power_state = "poweredOff") ∧
        (vm.power_state = "poweredOff" →
          gd.uptime = 0 ∧ gd.cpu_usage = 0 ∧ gd.memory_usage = 0 ∧
          gd.tools_status = "Not Running" ∧ gd.guest_state = "Stopped") ∧
        (vm.power_state = "poweredOn" →
          1 ≤ gd.uptime ∧ 20 ≤ gd.cpu_usage ∧ 40 ≤ gd.memory_usage ∧
          gd.tools_status = "Running Current" ∧ gd.guest_state = "Running")) vms gds := by
  intro hosts
  induction hosts with
  | nil =>
    intro vid r vms gds vid2 rr h
    rw [vms_go] at h
    simp only [Option.some.injEq, Prod.mk.injEq] at h
    obtain ⟨h1, h2, h3, _⟩ := h
    subst h1
    subst h2
    subst h3
    simp
  | cons hh0 rest IH =>
    intro vid r vms gds vid2 rr h
    rw [vms_go] at h
    split at h
    · exact absurd h (by simp)
    · next vc hvc =>
      simp only [] at h
      split at h
      · exact absurd h (by simp)
      · next region_config hrc =>
        split at h
        · exact absurd h (by simp)
        · next vms1 gds1 vidA rA hloop =>
          split at h
          · exact absurd h (by simp)
          · next vms2 gds2 vidB rB hrec =>
            simp only [Option.some.injEq, Prod.mk.injEq] at h
            obtain ⟨h1, h2, h3, _⟩ := h
            subst h1
            subst h2
            subst h3
            obtain ⟨hl1, hl2, hl3, hl4, hl5⟩ :=
              vm_loop_spec cfg hh0 region_config.network_pfx _ _ _ _ _ _ _ hloop
            obtain ⟨ih1, ih2, ih3, ih4, ih5⟩ := IH _ _ _ _ _ _ hrec
            have hblk_parent : ∀ vm ∈ vms1, vm.parent_host = hh0.moref :=
              fun vm hm => (hl4 vm hm).1
            refine ⟨?_, ?_, ?_, ?_, ?_⟩
            · rw [List.map_append, List.length_append, hl1, ih1, hl3, hl2]
              exact range'_map_append _ vid hh0.vm_capacity vms2.length
            · rw [List.length_append, ih2, hl3, hl2]
              omega
            · intro vm hmem
              rcases List.mem_append.mp hmem with hmem | hmem
              · exact ⟨hh0, List.mem_cons_self hh0 rest,
                  (hl4 vm hmem).1, (hl4 vm hmem).2.1⟩
              · obtain ⟨hh, hm1, hm2⟩ := ih3 vm hmem
                exact ⟨hh, List.mem_cons_of_mem hh0 hm1, hm2⟩
            · intro hnd hh hmemh
              rw [List.map_cons, List.nodup_cons] at hnd
              obtain ⟨hnd1, hnd2⟩ := hnd
              have htail_ne : ∀ vm ∈ vms2, vm.parent_host ≠ hh0.moref := by
                intro vm hm hcontra
                obtain ⟨hh', hm1, hm2⟩ := ih3 vm hm
                exact hnd1 (List.mem_map.mpr ⟨hh', hm1, by rw [← hm2.1, hcontra]⟩)
              rcases List.mem_cons.mp hmemh with hmemh | hmemh
              · rw [hmemh]
                rw [List.filter_append]
                have hfb : vms1.filter (fun vm => vm.parent_host == hh0.moref) = vms1 :=
                  List.filter_eq_self.mpr (fun vm hm => by
                    show (vm.parent_host == hh0.moref) = true
                    exact beq_iff_eq.mpr (hblk_parent vm hm))
                have hft : vms2.filter (fun vm => vm.parent_host == hh0.moref) = [] := by
                  rw [List.filter_eq_nil_iff]
                  intro vm hm
                  exact fun hx => htail_ne vm hm (beq_iff_eq.mp hx)
                rw [hfb, hft, List.length_append, hl2]
                simp
              · have hne : hh0.moref ≠ hh.moref := by
                  intro hcontra
                  exact hnd1 (List.mem_map.mpr ⟨hh, hmemh, hcontra.symm⟩)
                have hfb : vms1.filter (fun vm => vm.parent_host == hh.moref) = [] := by
                  rw [List.filter_eq_nil_iff]
                  intro vm hm
                  refine fun hx => hne ?_
                  rw [← hblk_parent vm hm]
                  exact beq_iff_eq.mp hx
                rw [List.filter_append, hfb, List.nil_append]
                exact ih4 hnd2 hh hmemh
            · exact List.rel_append hl5 ih5

lemma ds_loop_spec (cfg : Config) (cl : Cluster) :
    ∀ k i did r dss did2 rr, ds_loop cfg cl i k did r = some (dss, did2, rr) →
      dss.map (fun ds => ds.moref) =
        (List.range' did k).map (fun m => "datastore-" ++ decStr m) ∧
      dss.length = k ∧ did2 = did + k := by
  intro k
  induction k with
  | zero =>
    intro i did r dss did2 rr h
    rw [ds_loop] at h
    simp only [Option.some.injEq, Prod.mk.injEq] at h
    obtain ⟨h1, h2, _⟩ := h
    subst h1
    subst h2
    simp
  | succ k IH =>
    intro i did r dss did2 rr h
    rw [ds_loop] at h
    split at h
    · exact absurd h (by simp)
    · next capacity r1 hcap =>
      simp only [] at h
      split at h
      · exact absurd h (by simp)
      · next arr r2 harr =>
        split at h
        · exact absurd h (by simp)
        · next model r3 hmodel =>
          split at h
          · exact absurd h (by simp)
          · next more did3 r4 hrec =>
            simp only [Option.some.injEq, Prod.mk.injEq] at h
            obtain ⟨h1, h2, _⟩ := h
            subst h1
            subst h2
            obtain ⟨ih1, ih2, ih3⟩ := IH _ _ _ _ _ _ hrec
            refine ⟨?_, ?_, ?_⟩
            · rw [List.map_cons, List.range'_succ, List.map_cons]
              exact congrArg₂ List.cons rfl ih1
            · rw [List.length_cons, ih2]
            · rw [ih3]
              omega

lemma datastores_go_spec (cfg : Config) :
    ∀ cls did r dss did2 rr, datastores_go cfg cls did r = some (dss, did2, rr) →
      dss.map (fun ds => ds.moref) =
        (List.range' did dss.length).map (fun m => "datastore-" ++ decStr m) ∧
      did2 = did + dss.length := by
  intro cls
  induction cls with
  | nil =>
    intro did r dss did2 rr h
    rw [datastores_go] at h
    simp only [Option.some.injEq, Prod.mk.injEq] at h
    obtain ⟨h1, h2, _⟩ := h
    subst h1
    subst h2
    simp
  | cons cl rest IH =>
    intro did r dss did2 rr h
    rw [datastores_go] at h
    simp only [] at h
    split at h
    · exact absurd h (by simp)
    · next dss1 did1 r1 hloop =>
      split at h
      · exact absurd h (by simp)
      · next dss2 did3 r2 hrec =>
        simp only [Option.some.injEq, Prod.mk.injEq] at h
        obtain ⟨h1, h2, _⟩ := h
        subst h1
        subst h2
        obtain ⟨hl1, hl2, hl3⟩ := ds_loop_spec cfg cl _ _ _ _ _ _ _ hloop
        obtain ⟨ih1, ih2⟩ := IH _ _ _ _ _ hrec
        constructor
        · rw [List.map_append, List.length_append, hl1, ih1, hl3, ← hl2]
          exact range'_map_append _ did dss1.length dss2.length
        · rw [List.length_append, ih2, hl3, hl2]
          omega

lemma dscs_go_spec (datastores : List Datastore) :
    ∀ cls did r dscs did2 rr, dscs_go datastores cls did r = (dscs, did2, rr) →
      dscs.map (fun d => d.moref) =
        (List.range' did dscs.length).map (fun m => "dsc-" ++ decStr m) ∧
      did2 = did + dscs.length := by
  intro cls
  induction cls with
  | nil =>
    intro did r dscs did2 rr h
    rw [dscs_go] at h
    simp only [Prod.mk.injEq] at h
    obtain ⟨h1, h2, _⟩ := h
    subst h1
    subst h2
    simp
  | cons cl rest IH =>
    intro did r dscs did2 rr h
    rw [dscs_go] at h
    simp only [] at h
    split at h
    · exact IH _ _ _ _ _ h
    · simp only [Prod.mk.injEq] at h
      obtain ⟨h1, h2, _⟩ := h
      subst h1
      subst h2
      obtain ⟨ih1, ih2⟩ := IH _ _ _ _ _ rfl
      constructor
      · rw [List.map_cons, List.length_cons, List.range'_succ, List.map_cons]
        exact congrArg₂ List.cons rfl ih1
      · rw [List.length_cons, ih2]
        omega

lemma vswitches_go_spec : ∀ vcs sid,
    (vswitches_go vcs sid).map (fun sw => sw.moref) =
      (List.range' sid vcs.length).map (fun m => "dvs-" ++ decStr m) ∧
    (vswitches_go vcs sid).length = vcs.length := by
  intro vcs
  induction vcs with
  | nil =>
    intro sid
    simp [vswitches_go]
  | cons vc rest IH =>
    intro sid
    rw [vswitches_go]
    obtain ⟨ih1, ih2⟩ := IH (sid + 1)
    constructor
    · rw [List.map_cons, List.length_cons, List.range'_succ, List.map_cons]
      exact congrArg₂ List.cons rfl ih1
    · rw [List.length_cons, ih2]
      rfl

lemma net_seg_loop_spec (vms : List VM) (region npfx purpose : String) :
    ∀ segs nid nets pgs nid2,
      net_seg_loop vms region npfx purpose segs nid = (nets, pgs, nid2) →
      nets.map (fun nt => nt.name) =
        segs.map (fun s => region ++ "-NET-" ++ purpose ++ "-" ++ s) ∧
      nets.map (fun nt => nt.associated_vms) =
        segs.map (fun s => pyJoin ","
          (((vms.filter (fun vm => vmNameSeg vm.name == s)).map (fun vm => vm.moref)).take 5)) ∧
      nets.map (fun nt => nt.moref) =
        (List.range' nid segs.length).map (fun m => "network-" ++ decStr m) ∧
      nid2 = nid + segs.length ∧
      pgs = nets.map generate_portgroup ∧
      nets.length = segs.length := by
  intro segs
  induction segs with
  | nil =>
    intro nid nets pgs nid2 h
    rw [net_seg_loop] at h
    simp only [Prod.mk.injEq] at h
    obtain ⟨h1, h2, h3⟩ := h
    subst h1
    subst h2
    subst h3
    simp
  | cons segment rest IH =>
    intro nid nets pgs nid2 h
    rw [net_seg_loop] at h
    simp only [] at h
    simp only [Prod.mk.injEq] at h
    obtain ⟨h1, h2, h3⟩ := h
    subst h1
    subst h2
    subst h3
    obtain ⟨ih1, ih2, ih3, ih4, ih5, ih6⟩ := IH _ _ _ _ rfl
    refine ⟨?_, ?_, ?_, ?_, ?_, ?_⟩
    · rw [List.map_cons, List.map_cons]
      exact congrArg₂ List.cons rfl ih1
    · rw [List.map_cons, List.map_cons]
      exact congrArg₂ List.cons rfl ih2
    · rw [List.map_cons, List.length_cons, List.range'_succ, List.map_cons]
      exact congrArg₂ List.cons rfl ih3
    · rw [List.length_cons, ih4]
      omega
    · rw [List.map_cons]
      exact congrArg₂ List.cons rfl ih5
    · rw [List.length_cons, List.length_cons, ih6]

lemma net_purpose_loop_spec (vms : List VM) (region npfx : String) :
    ∀ purps nid nets pgs nid2,
      net_purpose_loop vms region npfx purps nid = (nets, pgs, nid2) →
      nets.map (fun nt => nt.name) =
        purps.flatMap (fun p => ["WEB", "APP", "DB"].map
          (fun s => region ++ "-NET-" ++ p ++ "-" ++ s)) ∧
      nets.map (fun nt => nt.associated_vms) =
        purps.flatMap (fun _ => ["WEB", "APP", "DB"].map (fun s => pyJoin ","
          (((vms.filter (fun vm => vmNameSeg vm.name == s)).map (fun vm => vm.moref)).take 5))) ∧
      nets.map (fun nt => nt.moref) =
        (List.range' nid nets.length).map (fun m => "network-" ++ decStr m) ∧
      nid2 = nid + nets.length ∧
      pgs = nets.map generate_portgroup ∧
      nets.length = 3 * purps.length := by
  intro purps
  induction purps with
  | nil =>
    intro nid nets pgs nid2 h
    rw [net_purpose_loop] at h
    simp only [Prod.mk.injEq] at h
    obtain ⟨h1, h2, h3⟩ := h
    subst h1
    subst h2
    subst h3
    simp
  | cons purpose rest IH =>
    intro nid nets pgs nid2 h
    rw [net_purpose_loop] at h
    split at h
    next netsA pgsA nidA heqA =>
    split at h
    next netsB pgsB nidB heqB =>
    simp only [Prod.mk.injEq] at h
    obtain ⟨h1, h2, h3⟩ := h
    subst h1
    subst h2
    subst h3
    obtain ⟨hs1, hs2, hs3, hs4, hs5, hs6⟩ :=
      net_seg_loop_spec vms region npfx purpose ["WEB", "APP", "DB"] nid _ _ _ heqA
    obtain ⟨ih1, ih2, ih3, ih4, ih5, ih6⟩ := IH _ _ _ _ heqB
    refine ⟨?_, ?_, ?_, ?_, ?_, ?_⟩
    · rw [List.map_append, List.flatMap_cons, hs1, ih1]
    · rw [List.map_append, List.flatMap_cons, hs2, ih2]
    · rw [List.map_append, List.length_append, hs3, ih3, hs4, hs6]
      exact range'_map_append _ nid 3 _
    · rw [List.length_append, ih4, hs4, hs6]
      omega
    · rw [List.map_append, hs5, ih5]
    · rw [List.length_append, hs6, ih6]
      simp only [List.length_cons, List.length_nil]
      omega

lemma networks_go_spec (vms : List VM) :
    ∀ vcs nid nets pgs nid2,
      networks_go vms vcs nid = some (nets, pgs, nid2) →
      nets.map (fun nt => nt.name) =
        vcs.flatMap (fun vc => ["PROD", "DEV", "DMZ", "MGMT"].flatMap
          (fun p => ["WEB", "APP", "DB"].map
            (fun s => get_full_region_name vc.name ++ "-NET-" ++ p ++ "-" ++ s))) ∧
      nets.map (fun nt => nt.associated_vms) =
        vcs.flatMap (fun _ => ["PROD", "DEV", "DMZ", "MGMT"].flatMap
          (fun _ => ["WEB", "APP", "DB"].map (fun s => pyJoin ","
            (((vms.filter (fun vm => vmNameSeg vm.name == s)).map
              (fun vm => vm.moref)).take 5)))) ∧
      nets.map (fun nt => nt.moref) =
        (List.range' nid nets.length).map (fun m => "network-" ++ decStr m) ∧
      nid2 = nid + nets.length ∧
      pgs = nets.map generate_portgroup ∧
      nets.length = 12 * vcs.length := by
  intro vcs
  induction vcs with
  | nil =>
    intro nid nets pgs nid2 h
    rw [networks_go] at h
    simp only [Option.some.injEq, Prod.mk.injEq] at h
    obtain ⟨h1, h2, h3⟩ := h
    subst h1
    subst h2
    subst h3
    simp
  | cons vc rest IH =>
    intro nid nets pgs nid2 h
    rw [networks_go] at h
    split at h
    · exact absurd h (by simp)
    · next e he =>
      split at h
      next netsA pgsA nidA heqA =>
      split at h
      · exact absurd h (by simp)
      · next nets2 pgs2 nid3 hrec =>
        simp only [Option.some.injEq, Prod.mk.injEq] at h
        obtain ⟨h1, h2, h3⟩ := h
        subst h1
        subst h2
        subst h3
        obtain ⟨hp1, hp2, hp3, hp4, hp5, hp6⟩ :=
          net_purpose_loop_spec vms (get_full_region_name vc.name) e.2.2
            ["PROD", "DEV", "DMZ", "MGMT"] nid _ _ _ heqA
        obtain ⟨ih1, ih2, ih3, ih4, ih5, ih6⟩ := IH _ _ _ _ hrec
        refine ⟨?_, ?_, ?_, ?_, ?_, ?_⟩
        · rw [List.map_append, List.flatMap_cons, hp1, ih1]
        · rw [List.map_append, List.flatMap_cons, hp2, ih2]
        · rw [List.map_append, List.length_append, hp3, ih3, hp4, hp6]
          exact range'_map_append _ nid _ _
        · rw [List.length_append, ih4, hp4]
          omega
        · rw [List.map_append, hp5, ih5]
        · rw [List.length_append, hp6, ih6]
          simp only [List.length_cons, List.length_nil]
          omega

lemma map_pg_moref : ∀ (nets : List Network) (s n : Nat),
    nets.map (fun nt => nt.moref) =
      (List.range' s n).map (fun m => "network-" ++ decStr m) →
    (nets.map generate_portgroup).map (fun pg => pg.moref) =
      (List.range' s n).map (fun m => "pg-" ++ decStr m) := by
  intro nets
  induction nets with
  | nil =>
    intro s n h
    cases n with
    | zero => simp
    | succ n => rw [List.range'_succ] at h ⊢; simp at h
  | cons nt rest IH =>
    intro s n h
    cases n with
    | zero => simp at h
    | succ n =>
      rw [List.range'_succ, List.map_cons, List.map_cons, List.cons.injEq] at h
      obtain ⟨h1, h2⟩ := h
      rw [List.map_cons, List.map_cons, List.range'_succ, List.map_cons]
      exact congrArg₂ List.cons (congrArg PortGroup.moref (congrArg generate_portgroup rfl) ▸
        generate_portgroup_moref nt s h1) (IH (s + 1) n h2)

lemma tag_loop_spec (category : String) :
    ∀ sampled tid r tags tid2 rr, tag_loop category sampled tid r = (tags, tid2, rr) →
      tags.map (fun t => t.moref) =
        (List.range' tid tags.length).map (fun m => "tag-" ++ decStr m) ∧
      tid2 = tid + tags.length := by
  intro sampled
  induction sampled with
  | nil =>
    intro tid r tags tid2 rr h
    rw [tag_loop] at h
    simp only [Prod.mk.injEq] at h
    obtain ⟨h1, h2, _⟩ := h
    subst h1
    subst h2
    simp
  | cons vm rest IH =>
    intro tid r tags tid2 rr h
    rw [tag_loop] at h
    simp only [] at h
    simp only [Prod.mk.injEq] at h
    obtain ⟨h1, h2, _⟩ := h
    subst h1
    subst h2
    obtain ⟨ih1, ih2⟩ := IH (tid + 1) r _ _ _ rfl
    constructor
    · rw [List.map_cons, List.length_cons, List.range'_succ, List.map_cons]
      exact congrArg₂ List.cons rfl ih1
    · rw [List.length_cons, ih2]
      omega

lemma tags_go_spec (vms : List VM) :
    ∀ cats tid r tags tid2 rr, tags_go vms cats tid r = (tags, tid2, rr) →
      tags.map (fun t => t.moref) =
        (List.range' tid tags.length).map (fun m => "tag-" ++ decStr m) ∧
      tid2 = tid + tags.length := by
  intro cats
  induction cats with
  | nil =>
    intro tid r tags tid2 rr h
    rw [tags_go] at h
    simp only [Prod.mk.injEq] at h
    obtain ⟨h1, h2, _⟩ := h
    subst h1
    subst h2
    simp
  | cons category rest IH =>
    intro tid r tags tid2 rr h
    rw [tags_go] at h
    split at h
    next sampled rA heqA =>
    split at h
    next tagsA tidA rB heqB =>
    split at h
    next tagsB tidB rC heqC =>
    simp only [Prod.mk.injEq] at h
    obtain ⟨h1, h2, _⟩ := h
    subst h1
    subst h2
    obtain ⟨hl1, hl2⟩ := tag_loop_spec category _ _ _ _ _ _ heqB
    obtain ⟨ih1, ih2⟩ := IH _ _ _ _ _ heqC
    constructor
    · rw [List.map_append, List.length_append, hl1, ih1, hl2]
      exact range'_map_append _ tid tagsA.length tagsB.length
    · rw [List.length_append, ih2, hl2]
      omega

lemma update_host_totals_moref (cls : List Cluster) (hosts : List Host) :
    (update_cluster_host_totals cls hosts).map (fun c => c.moref) =
      cls.map (fun c => c.moref) := by
  rw [update_cluster_host_totals, List.map_map]
  exact List.map_congr_left (fun c _ => rfl)

lemma update_vm_totals_moref (cls : List Cluster) (vms : List VM) :
    (update_cluster_vm_totals cls vms).map (fun c => c.moref) =
      cls.map (fun c => c.moref) := by
  rw [update_cluster_vm_totals, List.map_map]
  exact List.map_congr_left (fun c _ => rfl)

lemma update_host_totals_mem (cls : List Cluster) (hosts : List Host) :
    ∀ c ∈ update_cluster_host_totals cls hosts, ∃ c0 ∈ cls,
      c.moref = c0.moref ∧ c.total_hosts = c0.total_hosts ∧
      c.total_cpu_cores =
        ((hosts.filter (fun hh => hh.parent_cluster == c0.moref)).map
          (fun hh => hh.cpu_cores)).sum ∧
      c.total_memory =
        ((hosts.filter (fun hh => hh.parent_cluster == c0.moref)).map
          (fun hh => hh.memory_gb)).sum := by
  intro c hc
  rw [update_cluster_host_totals] at hc
  obtain ⟨c0, hc0, hceq⟩ := List.mem_map.mp hc
  refine ⟨c0, hc0, ?_, ?_, ?_, ?_⟩ <;> rw [← hceq]

lemma update_vm_totals_mem (cls : List Cluster) (vms : List VM) :
    ∀ c ∈ update_cluster_vm_totals cls vms, ∃ c0 ∈ cls,
      c.moref = c0.moref ∧ c.total_hosts = c0.total_hosts ∧
      c.total_cpu_cores = c0.total_cpu_cores ∧ c.total_memory = c0.total_memory ∧
      c.total_vms = (vms.filter (fun vm => vm.cluster_moref == c0.moref)).length := by
  intro c hc
  rw [update_cluster_vm_totals] at hc
  obtain ⟨c0, hc0, hceq⟩ := List.mem_map.mp hc
  refine ⟨c0, hc0, ?_, ?_, ?_, ?_, ?_⟩ <;> rw [← hceq]

lemma generate_hosts_eq (cfg : Config) (cls : List Cluster) (r : Rng)
    (cls1 : List Cluster) (hosts : List Host) (nics : List HostNic) (r' : Rng)
    (h : generate_hosts cfg cls r = some (cls1, hosts, nics, r')) :
    cls1 = update_cluster_host_totals cls hosts ∧
    ∃ hid2 rr, hosts_go cfg cls 1000 r = some (hosts, nics, hid2, rr) := by
  rw [generate_hosts] at h
  split at h
  · exact absurd h (by simp)
  · next hs ns hid rr hgo =>
    simp only [Option.some.injEq, Prod.mk.injEq] at h
    obtain ⟨h1, h2, h3, _⟩ := h
    subst h1
    subst h2
    subst h3
    exact ⟨rfl, hid, rr, hgo⟩

lemma generate_vms_eq (cfg : Config) (cls : List Cluster) (hosts : List Host)
    (vcs : List VCenter) (r : Rng) (cls2 : List Cluster) (vms : List VM)
    (gds : List GuestDetail) (r' : Rng)
    (h : generate_vms cfg cls hosts vcs r = some (cls2, vms, gds, r')) :
    cls2 = update_cluster_vm_totals cls vms ∧
    ∃ vid2 rr, vms_go cfg vcs hosts 1000 r = some (vms, gds, vid2, rr) := by
  rw [generate_vms] at h
  split at h
  · exact absurd h (by simp)
  · next vs gs vid rr hgo =>
    simp only [Option.some.injEq, Prod.mk.injEq] at h
    obtain ⟨h1, h2, h3, _⟩ := h
    subst h1
    subst h2
    subst h3
    exact ⟨rfl, vid, rr, hgo⟩

lemma generate_datastores_eq (cfg : Config) (cls : List Cluster) (r : Rng)
    (dss : List Datastore) (r' : Rng)
    (h : generate_datastores cfg cls r = some (dss, r')) :
    ∃ did2 rr, datastores_go cfg cls 1000 r = some (dss, did2, rr) := by
  rw [generate_datastores] at h
  split at h
  · exact absurd h (by simp)
  · next ds2 did rr hgo =>
    simp only [Option.some.injEq, Prod.mk.injEq] at h
    obtain ⟨h1, _⟩ := h
    subst h1
    exact ⟨did, rr, hgo⟩

lemma generate_networks_eq (vms : List VM) (vcs : List VCenter)
    (nets : List Network) (pgs : List PortGroup)
    (h : generate_networks vms vcs = some (nets, pgs)) :
    ∃ nid2, networks_go vms vcs 1000 = some (nets, pgs, nid2) := by
  rw [generate_networks] at h
  split at h
  · exact absurd h (by simp)
  · next ns2 ps2 nid hgo =>
    simp only [Option.some.injEq, Prod.mk.injEq] at h
    obtain ⟨h1, h2⟩ := h
    subst h1
    subst h2
    exact ⟨nid, hgo⟩

set_option maxHeartbeats 2000000 in
lemma run_decompose (cfg : Config) (r : Rng) (res : GenResult)
    (h : generate_all cfg r = some res) :
    ∃ (r1 r2 r3 r4 r5 r6 r7 : Rng) (cls0 cls1 : List Cluster),
      generate_vcenters r = (res.vcenters, r1) ∧
      generate_datacenters res.vcenters r1 = (res.datacenters, r2) ∧
      generate_clusters cfg res.vcenters res.datacenters r2 = some (cls0, r3) ∧
      generate_hosts cfg cls0 r3 = some (cls1, res.hosts, res.host_nics, r4) ∧
      generate_datastores cfg cls1 r4 = some (res.datastores, r5) ∧
      generate_datastore_clusters cls1 res.datastores r5 = (res.datastore_clusters, r6) ∧
      res.virtual_switches = generate_virtual_switches res.vcenters ∧
      generate_vms cfg cls1 res.hosts res.vcenters r6 =
        some (res.clusters, res.vms, res.vm_guest_details, r7) ∧
      generate_networks res.vms res.vcenters = some (res.networks, res.portgroups) ∧
      res.nsx_tags = (generate_nsx_tags res.vms r7).1 := by
  rw [generate_all] at h
  simp only [] at h
  split at h
  · exact absurd h (by simp)
  · next cls0 r3 hcl =>
    split at h
    · exact absurd h (by simp)
    · next cls1 hosts nics r4 hho =>
      split at h
      · exact absurd h (by simp)
      · next dss r5 hds =>
        split at h
        · exact absurd h (by simp)
        · next cls2 vms gds r7 hvm =>
          split at h
          · exact absurd h (by simp)
          · next nets pgs hnet =>
            simp only [Option.some.injEq] at h
            subst h
            refine ⟨_, _, _, _, _, _, _, cls0, cls1, rfl, rfl, hcl, hho, hds, rfl, rfl, hvm, hnet, rfl⟩

lemma run_facts (cfg : Config) (r : Rng) (res : GenResult)
    (h : generate_all cfg r = some res) :
    ∃ (cls0 cls1 : List Cluster) (r3 r6 : Rng) (hid2 vid2 : Nat) (rrh rrv : Rng),
      (cls0.map (fun c => c.moref)).Nodup ∧
      cls1 = update_cluster_host_totals cls0 res.hosts ∧
      res.clusters = update_cluster_vm_totals cls1 res.vms ∧
      hosts_go cfg cls0 1000 r3 = some (res.hosts, res.host_nics, hid2, rrh) ∧
      vms_go cfg res.vcenters res.hosts 1000 r6 = some (res.vms, res.vm_guest_details, vid2, rrv) := by
  obtain ⟨r1, r2, r3, r4, r5, r6, r7, cls0, cls1, hvc, hdc, hcl, hho, hds, hdsc, hsw, hvm,
    hnet, htag⟩ := run_decompose cfg r res h
  have hmor0 := generate_clusters_spec cfg res.vcenters res.datacenters r2 cls0 r3 hcl
  have hnd0 : (cls0.map (fun c => c.moref)).Nodup := by
    rw [hmor0]
    exact nodup_pfx_range _ 1000 cls0.length
  obtain ⟨hcls1, hid2, rrh, hgo⟩ := generate_hosts_eq cfg cls0 r3 cls1 res.hosts res.host_nics r4 hho
  obtain ⟨hcls2, vid2, rrv, vgo⟩ :=
    generate_vms_eq cfg cls1 res.hosts res.vcenters r6 res.clusters res.vms res.vm_guest_details r7 hvm
  exact ⟨cls0, cls1, r3, r6, hid2, vid2, rrh, rrv, hnd0, hcls1, hcls2, hgo, vgo⟩

/-- C2: after a full generation run, every cluster's `total_hosts` equals
the number of host records whose `parent_cluster` is the cluster's moref,
`total_cpu_cores` and `total_memory` equal the sums of `cpu_cores` and
`memory_gb` over exactly those hosts, and `total_vms` equals the number of
VM records whose `cluster_moref` is the cluster's moref. -/
theorem C2_cluster_aggregates (cfg : Config) (r : Rng) (res : GenResult)
    (h : generate_all cfg r = some res) :
    ∀ c ∈ res.clusters,
      c.total_hosts = (res.hosts.filter (fun hh => hh.parent_cluster == c.moref)).length ∧
      c.total_cpu_cores =
        ((res.hosts.filter (fun hh => hh.parent_cluster == c.moref)).map
          (fun hh => hh.cpu_cores)).sum ∧
      c.total_memory =
        ((res.hosts.filter (fun hh => hh.parent_cluster == c.moref)).map
          (fun hh => hh.memory_gb)).sum ∧
      c.total_vms = (res.vms.filter (fun vm => vm.cluster_moref == c.moref)).length := by
  obtain ⟨cls0, cls1, r3, r6, hid2, vid2, rrh, rrv, hnd0, hcls1, hcls2, hgo, vgo⟩ :=
    run_facts cfg r res h
  obtain ⟨_, _, _, hcount, _, _⟩ := hosts_go_spec cfg cls0 1000 r3 _ _ _ _ hgo
  intro c hc
  rw [hcls2] at hc
  obtain ⟨c1, hc1, hm1, hth1, hcpu1, hmem1, hvms1⟩ := update_vm_totals_mem cls1 res.vms c hc
  rw [hcls1] at hc1
  obtain ⟨c0, hc0, hm0, hth0, hcpu0, hmem0⟩ := update_host_totals_mem cls0 res.hosts c1 hc1
  have hmor : c.moref = c0.moref := by rw [hm1, hm0]
  refine ⟨?_, ?_, ?_, ?_⟩
  · rw [hth1, hth0, hmor]
    exact ((hcount hnd0 c0 hc0).1).symm
  · rw [hcpu1, hcpu0, hmor]
  · rw [hmem1, hmem0, hmor]
  · rw [hvms1, hm1]

/-- C2, witness: the aggregate equations instantiated on the first cluster
of the concrete run. -/
theorem C2_cluster_aggregates_witness :
    generate_all cfg0 rngZero = some res00 ∧
    ((res00.clusters.getD 0 default).total_hosts =
      (res00.hosts.filter
        (fun hh => hh.parent_cluster == (res00.clusters.getD 0 default).moref)).length ∧
     (res00.clusters.getD 0 default).total_cpu_cores =
      ((res00.hosts.filter
        (fun hh => hh.parent_cluster == (res00.clusters.getD 0 default).moref)).map
          (fun hh => hh.cpu_cores)).sum ∧
     (res00.clusters.getD 0 default).total_memory =
      ((res00.hosts.filter
        (fun hh => hh.parent_cluster == (res00.clusters.getD 0 default).moref)).map
          (fun hh => hh.memory_gb)).sum ∧
     (res00.clusters.getD 0 default).total_vms =
      (res00.vms.filter
        (fun vm => vm.cluster_moref == (res00.clusters.getD 0 default).moref)).length) :=
  ⟨rfl, C2_cluster_aggregates cfg0 rngZero res00 rfl (res00.clusters.getD 0 default) (by decide)⟩

/-- C6: every guest-detail record pairs with its VM (same position, matching
moref); its telemetry is all-zero/"stopped" exactly when the VM is powered
off, and nonzero/"running" when it is powered on. -/
theorem C6_guest_telemetry (cfg : Config) (r : Rng) (res : GenResult)
    (h : generate_all cfg r = some res) :
    res.vm_guest_details.length = res.vms.length ∧
    ∀ p ∈ res.vms.zip res.vm_guest_details,
      p.2.vm_moref = p.1.moref ∧
      (p.1.power_state = "poweredOff" ↔
        (p.2.uptime = 0 ∧ p.2.cpu_usage = 0 ∧ p.2.memory_usage = 0 ∧
         p.2.tools_status = "Not Running" ∧ p.2.guest_state = "Stopped")) ∧
      (p.1.power_state = "poweredOn" →
        (1 ≤ p.2.uptime ∧ 20 ≤ p.2.cpu_usage ∧ 40 ≤ p.2.memory_usage ∧
         p.2.tools_status = "Running Current" ∧ p.2.guest_state = "Running")) := by
  obtain ⟨cls0, cls1, r3, r6, hid2, vid2, rrh, rrv, hnd0, hcls1, hcls2, hgo, vgo⟩ :=
    run_facts cfg r res h
  obtain ⟨_, _, _, _, hF⟩ := vms_go_spec cfg res.vcenters res.hosts 1000 r6 _ _ _ _ vgo
  obtain ⟨hlen, hzip⟩ := List.forall₂_iff_zip.mp hF
  refine ⟨hlen.symm, ?_⟩
  intro p hp
  obtain ⟨hm, hcases, hoff, hon⟩ := hzip hp
  refine ⟨hm, ?_, hon⟩
  constructor
  · exact hoff
  · intro hz
    rcases hcases with hcase | hcase
    · obtain ⟨h1, _⟩ := hon hcase
      obtain ⟨hz1, _⟩ := hz
      omega
    · exact hcase

/-- C6, witness: the telemetry conditional instantiated on the first
VM/guest-detail pair of the concrete run. -/
theorem C6_guest_telemetry_witness :
    generate_all cfg0 rngZero = some res00 ∧
    ((res00.vms.getD 0 default, res00.vm_guest_details.getD 0 default) ∈
      res00.vms.zip res00.vm_guest_details) ∧
    ((res00.vms.getD 0 default).power_state = "poweredOff" ↔
      ((res00.vm_guest_details.getD 0 default).uptime = 0 ∧
       (res00.vm_guest_details.getD 0 default).cpu_usage = 0 ∧
       (res00.vm_guest_details.getD 0 default).memory_usage = 0 ∧
       (res00.vm_guest_details.getD 0 default).tools_status = "Not Running" ∧
       (res00.vm_guest_details.getD 0 default).guest_state = "Stopped")) :=
  ⟨rfl, by decide,
    ((C6_guest_telemetry cfg0 rngZero res00 rfl).2
      (res00.vms.getD 0 default, res00.vm_guest_details.getD 0 default) (by decide)).2.1⟩

lemma forall₂_vm_moref_map : ∀ (vms : List VM) (gds : List GuestDetail),
    List.Forall₂ (fun vm gd =>
      gd.vm_moref = vm.moref ∧
      (vm.power_state = "poweredOn" ∨ vm.power_state = "poweredOff") ∧
      (vm.power_state = "poweredOff" →
        gd.uptime = 0 ∧ gd.cpu_usage = 0 ∧ gd.memory_usage = 0 ∧
        gd.tools_status = "Not Running" ∧ gd.guest_state = "Stopped") ∧
      (vm.power_state = "poweredOn" →
        1 ≤ gd.uptime ∧ 20 ≤ gd.cpu_usage ∧ 40 ≤ gd.memory_usage ∧
        gd.tools_status = "Running Current" ∧ gd.guest_state = "Running")) vms gds →
    gds.map (fun gd => gd.vm_moref) = vms.map (fun vm => vm.moref) := by
  intro vms gds hF
  induction hF with
  | nil => rfl
  | cons hR _ IH =>
    rw [List.map_cons, List.map_cons, hR.1, IH]

/-- C7: each host receives exactly `vm_capacity` VMs (counted by
`parent_host`), and each VM has exactly one guest-detail record carrying
its moref. -/
theorem C7_per_host_vm_counts (cfg : Config) (r : Rng) (res : GenResult)
    (h : generate_all cfg r = some res) :
    (∀ hh ∈ res.hosts,
      (res.vms.filter (fun vm => vm.parent_host == hh.moref)).length = hh.vm_capacity) ∧
    res.vm_guest_details.length = res.vms.length ∧
    (∀ vm ∈ res.vms,
      (res.vm_guest_details.filter (fun gd => gd.vm_moref == vm.moref)).length = 1) := by
  obtain ⟨cls0, cls1, r3, r6, hid2, vid2, rrh, rrv, hnd0, hcls1, hcls2, hgo, vgo⟩ :=
    run_facts cfg r res h
  obtain ⟨hhost_mor, _, _, _, _, _⟩ := hosts_go_spec cfg cls0 1000 r3 _ _ _ _ hgo
  obtain ⟨hvm_mor, _, _, hcount, hF⟩ := vms_go_spec cfg res.vcenters res.hosts 1000 r6 _ _ _ _ vgo
  have hnd_hosts : (res.hosts.map (fun hh => hh.moref)).Nodup := by
    rw [hhost_mor]
    exact nodup_pfx_range _ 1000 res.hosts.length
  have hnd_vms : (res.vms.map (fun vm => vm.moref)).Nodup := by
    rw [hvm_mor]
    exact nodup_pfx_range _ 1000 res.vms.length
  have hlen := (List.forall₂_iff_zip.mp hF).1
  refine ⟨hcount hnd_hosts, hlen.symm, ?_⟩
  intro vm hvm
  have hmapeq := forall₂_vm_moref_map res.vms res.vm_guest_details hF
  have hc1 : (res.vm_guest_details.filter (fun gd => gd.vm_moref == vm.moref)).length =
      res.vm_guest_details.countP (fun gd => gd.vm_moref == vm.moref) :=
    (List.countP_eq_length_filter _ _).symm
  have hc2 : res.vm_guest_details.countP (fun gd => gd.vm_moref == vm.moref) =
      (res.vm_guest_details.map (fun gd => gd.vm_moref)).count vm.moref := by
    rw [List.count, List.countP_map]
    rfl
  rw [hc1, hc2, hmapeq]
  exact List.count_eq_one_of_mem hnd_vms (List.mem_map_of_mem _ hvm)

/-- C7, witness: the per-host count and per-VM guest-detail count
instantiated on the first host and first VM of the concrete run. -/
theorem C7_per_host_vm_counts_witness :
    generate_all cfg0 rngZero = some res00 ∧
    (res00.vms.filter
      (fun vm => vm.parent_host == (res00.hosts.getD 0 default).moref)).length =
      (res00.hosts.getD 0 default).vm_capacity ∧
    (res00.vm_guest_details.filter
      (fun gd => gd.vm_moref == (res00.vms.getD 0 default).moref)).length = 1 :=
  ⟨rfl,
   (C7_per_host_vm_counts cfg0 rngZero res00 rfl).1 (res00.hosts.getD 0 default) (by decide),
   (C7_per_host_vm_counts cfg0 rngZero res00 rfl).2.2 (res00.vms.getD 0 default) (by decide)⟩

/-- C10: the hardware model and the VM-density category are drawn once per
cluster: all hosts of one cluster share the model name, core count and
memory size, and their `vm_capacity` values all lie in one density
category's range (provided the configured ranges are well-formed,
`min ≤ max`, as `random.randint` otherwise raises). -/
theorem C10_per_cluster_sampling (cfg : Config) (r : Rng) (res : GenResult)
    (h : generate_all cfg r = some res)
    (hwf : ∀ d ∈ cfg.vm_density, d.range_min ≤ d.range_max) :
    (∀ h1 ∈ res.hosts, ∀ h2 ∈ res.hosts, h1.parent_cluster = h2.parent_cluster →
      h1.model = h2.model ∧ h1.cpu_cores = h2.cpu_cores ∧ h1.memory_gb = h2.memory_gb) ∧
    (∀ c ∈ res.clusters, ∃ model ∈ cfg.host_models, ∃ dens ∈ cfg.vm_density,
      ∀ hh ∈ res.hosts, hh.parent_cluster = c.moref →
        hh.model = model.name ∧ hh.cpu_cores = model.cpu_cores ∧
        hh.memory_gb = model.memory_gb ∧
        dens.range_min ≤ hh.vm_capacity ∧ hh.vm_capacity ≤ dens.range_max) := by
  obtain ⟨cls0, cls1, r3, r6, hid2, vid2, rrh, rrv, hnd0, hcls1, hcls2, hgo, vgo⟩ :=
    run_facts cfg r res h
  obtain ⟨_, _, hparent, hcl, _, _⟩ := hosts_go_spec cfg cls0 1000 r3 _ _ _ _ hgo
  constructor
  · intro h1 hm1 h2 hm2 hpar
    obtain ⟨c0, hc0, hp0⟩ := hparent h1 hm1
    obtain ⟨_, model, hmodel, dens, hdens, hfields⟩ := hcl hnd0 c0 hc0
    obtain ⟨f1a, f1b, f1c, _⟩ := hfields h1 hm1 hp0
    obtain ⟨f2a, f2b, f2c, _⟩ := hfields h2 hm2 (by rw [← hpar]; exact hp0)
    refine ⟨?_, ?_, ?_⟩
    · rw [f1a, f2a]
    · rw [f1b, f2b]
    · rw [f1c, f2c]
  · intro c hc
    rw [hcls2] at hc
    obtain ⟨c1, hc1, hm1, _, _, _, _⟩ := update_vm_totals_mem cls1 res.vms c hc
    rw [hcls1] at hc1
    obtain ⟨c0, hc0, hm0, _, _, _⟩ := update_host_totals_mem cls0 res.hosts c1 hc1
    obtain ⟨_, model, hmodel, dens, hdens, hfields⟩ := hcl hnd0 c0 hc0
    refine ⟨model, hmodel, dens, hdens, ?_⟩
    intro hh hmem hpar
    have hpar0 : hh.parent_cluster = c0.moref := by rw [hpar, hm1, hm0]
    obtain ⟨fa, fb, fc, fd⟩ := hfields hh hmem hpar0
    exact ⟨fa, fb, fc, fd (hwf dens hdens)⟩

/-- C10, witness: model/cpu/memory agreement instantiated on the first host
of the concrete run (paired with itself). -/
theorem C10_per_cluster_sampling_witness :
    generate_all cfg0 rngZero = some res00 ∧
    (∀ d ∈ cfg0.vm_density, d.range_min ≤ d.range_max) ∧
    ((res00.hosts.getD 0 default).model = (res00.hosts.getD 0 default).model ∧
     (res00.hosts.getD 0 default).cpu_cores = (res00.hosts.getD 0 default).cpu_cores ∧
     (res00.hosts.getD 0 default).memory_gb = (res00.hosts.getD 0 default).memory_gb) :=
  ⟨rfl, by decide,
   (C10_per_cluster_sampling cfg0 rngZero res00 rfl (by decide)).1
     (res00.hosts.getD 0 default) (by decide) (res00.hosts.getD 0 default) (by decide) rfl⟩

lemma vcenters_region_names : ∀ (l : List (String × Q × String)) (r : Rng),
    ((vcenters_go l r).1).map (fun vc => get_full_region_name vc.name) =
      l.map (fun e => get_full_region_name (e.1 ++ "-VC-01")) := by
  intro l
  induction l with
  | nil => intro r; rfl
  | cons e rest IH =>
    intro r
    obtain ⟨region, w, p⟩ := e
    rw [vcenters_go]
    simp only []
    rw [List.map_cons, List.map_cons, IH]

lemma zip_map_snd : ∀ (l : List Network) (p : Network × PortGroup),
    p ∈ l.zip (l.map generate_portgroup) → p.2 = generate_portgroup p.1 := by
  intro l
  induction l with
  | nil => intro p hp; simp at hp
  | cons a rest IH =>
    intro p hp
    rw [List.map_cons, List.zip_cons_cons] at hp
    rcases List.mem_cons.mp hp with hp | hp
    · rw [hp]
    · exact IH p hp

/-- C8: networks are the per-region cross-product of the 4 purposes and 3
segments (12 per region, over the five hardcoded regions), each network has
exactly one port group inheriting its VLAN id and associated-VM data, and
each network's `associated_vms` is the comma-join of the morefs of the
already-generated VMs whose name encodes the network's segment, capped at
five. -/
theorem C8_region_networks (cfg : Config) (r : Rng) (res : GenResult)
    (h : generate_all cfg r = some res) :
    res.vcenters.map (fun vc => get_full_region_name vc.name) =
      ["HQ-A", "HQ-B", "NA", "EU", "APAC"] ∧
    res.networks.length = 12 * res.vcenters.length ∧
    res.networks.map (fun nt => nt.name) =
      ["HQ-A", "HQ-B", "NA", "EU", "APAC"].flatMap
        (fun rg => ["PROD", "DEV", "DMZ", "MGMT"].flatMap
          (fun p => ["WEB", "APP", "DB"].map
            (fun s => rg ++ "-NET-" ++ p ++ "-" ++ s))) ∧
    res.portgroups = res.networks.map generate_portgroup ∧
    (∀ p ∈ res.networks.zip res.portgroups,
      p.2.vlan_id = p.1.vlan_id ∧ p.2.associated_vms = p.1.associated_vms) ∧
    (∀ nt ∈ res.networks, ∃ s ∈ ["WEB", "APP", "DB"],
      nt.associated_vms = pyJoin ","
        (((res.vms.filter (fun vm => vmNameSeg vm.name == s)).map
          (fun vm => vm.moref)).take 5) ∧
      (((res.vms.filter (fun vm => vmNameSeg vm.name == s)).map
          (fun vm => vm.moref)).take 5).length ≤ 5) := by
  obtain ⟨r1, r2, r3, r4, r5, r6, r7, cls0, cls1, hvc, hdc, hcl, hho, hds, hdsc, hsw, hvm,
    hnet, htag⟩ := run_decompose cfg r res h
  obtain ⟨nid2, hngo⟩ := generate_networks_eq res.vms res.vcenters res.networks res.portgroups hnet
  obtain ⟨hnames, hassoc, hmor, hnid, hpgs, hlen⟩ :=
    networks_go_spec res.vms res.vcenters 1000 res.networks res.portgroups nid2 hngo
  have hvcs : res.vcenters = (vcenters_go REGIONS r).1 := by
    rw [generate_vcenters] at hvc
    rw [hvc]
  have hvcn : res.vcenters.map (fun vc => get_full_region_name vc.name) =
      ["HQ-A", "HQ-B", "NA", "EU", "APAC"] := by
    rw [hvcs, vcenters_region_names]
    decide
  refine ⟨hvcn, hlen, ?_, hpgs, ?_, ?_⟩
  · rw [hnames, ← hvcn, List.flatMap_map]
  · intro p hp
    rw [hpgs] at hp
    have hp2 := zip_map_snd res.networks p hp
    rw [hp2]
    exact ⟨rfl, rfl⟩
  · intro nt hnt
    have hmem := List.mem_map_of_mem (fun nt => nt.associated_vms) hnt
    rw [hassoc] at hmem
    obtain ⟨vc, hvc2, hmem2⟩ := List.mem_flatMap.mp hmem
    obtain ⟨pp, hpp, hmem3⟩ := List.mem_flatMap.mp hmem2
    obtain ⟨s, hs, hseq⟩ := List.mem_map.mp hmem3
    exact ⟨s, hs, hseq.symm, List.length_take_le 5 _⟩

/-- C8, witness: the region-name list and the 12-per-region network count
instantiated on the concrete run. -/
theorem C8_region_networks_witness :
    generate_all cfg0 rngZero = some res00 ∧
    res00.vcenters.map (fun vc => get_full_region_name vc.name) =
      ["HQ-A", "HQ-B", "NA", "EU", "APAC"] ∧
    res00.networks.length = 12 * res00.vcenters.length :=
  ⟨rfl, (C8_region_networks cfg0 rngZero res00 rfl).1,
    (C8_region_networks cfg0 rngZero res00 rfl).2.1⟩

lemma str_append_assoc (a b c : String) : (a ++ b) ++ c = a ++ (b ++ c) := by
  apply str_eq_of_data_eq
  simp only [str_data_append, List.append_assoc]

lemma dash_not_mem_decStr (n : Nat) : '-' ∉ (decStr n).data :=
  dash_not_mem_decDigitsAux (n + 1) n

lemma nic_moref_inj_full (a i b j : Nat)
    (h : "nic-" ++ ("host-" ++ decStr a) ++ "-" ++ decStr i =
         "nic-" ++ ("host-" ++ decStr b) ++ "-" ++ decStr j) :
    a = b ∧ i = j := by
  have h3 := congrArg String.data h
  have hn : ("nic-" : String).data = ['n', 'i', 'c', '-'] := rfl
  have hho : ("host-" : String).data = ['h', 'o', 's', 't', '-'] := rfl
  have hdash : ("-" : String).data = ['-'] := rfl
  simp only [str_data_append, hn, hho, hdash, List.append_assoc, List.cons_append,
    List.nil_append, List.singleton_append, List.cons.injEq, eq_self_iff_true,
    true_and] at h3
  obtain ⟨hab, hij⟩ := dash_split_cancel _ _ _ _ (dash_not_mem_decStr a) (dash_not_mem_decStr b) h3
  exact ⟨decStr_inj (str_eq_of_data_eq hab), decStr_inj (str_eq_of_data_eq hij)⟩

lemma nic_flatMap_nodup (hs : List Host) (s : Nat)
    (hmor : hs.map (fun hh => hh.moref) =
      (List.range' s hs.length).map (fun m => "host-" ++ decStr m)) :
    (hs.flatMap (fun hh => (List.range' 0 hh.nic_count).map
      (fun j => "nic-" ++ hh.moref ++ "-" ++ decStr j))).Nodup := by
  have hform : ∀ hh ∈ hs, ∃ m, hh.moref = "host-" ++ decStr m := by
    intro hh hmem
    have hm := List.mem_map_of_mem (fun hh => hh.moref) hmem
    rw [hmor] at hm
    obtain ⟨m, hmr, hmeq⟩ := List.mem_map.mp hm
    exact ⟨m, hmeq.symm⟩
  have hnd : hs.Pairwise (fun h1 h2 => h1.moref ≠ h2.moref) := by
    have hnm : (hs.map (fun hh => hh.moref)).Nodup := by
      rw [hmor]
      exact nodup_pfx_range "host-" s hs.length
    exact List.pairwise_map.mp hnm
  have hsplit : (hs.flatMap (fun hh => (List.range' 0 hh.nic_count).map
      (fun j => "nic-" ++ hh.moref ++ "-" ++ decStr j))) =
      (hs.map (fun hh => (List.range' 0 hh.nic_count).map
        (fun j => "nic-" ++ hh.moref ++ "-" ++ decStr j))).flatten := rfl
  rw [hsplit, List.nodup_flatten]
  constructor
  · intro l hl
    obtain ⟨hh, hmem, hleq⟩ := List.mem_map.mp hl
    obtain ⟨m, hm⟩ := hform hh hmem
    rw [← hleq]
    show ((List.range' 0 hh.nic_count).map
      (fun j => "nic-" ++ hh.moref ++ "-" ++ decStr j)).Nodup
    rw [hm]
    refine List.Nodup.map ?_ (@List.nodup_range' 0 hh.nic_count 1 (by omega))
    intro i j hij
    exact (nic_moref_inj_full m i m j hij).2
  · rw [List.pairwise_map]
    refine List.Pairwise.imp_of_mem ?_ hnd
    intro h1 h2 hm1 hm2 hne
    obtain ⟨m1, hm1e⟩ := hform h1 hm1
    obtain ⟨m2, hm2e⟩ := hform h2 hm2
    intro x hx1 hx2
    obtain ⟨i, hi, hxi⟩ := List.mem_map.mp hx1
    obtain ⟨j, hj, hxj⟩ := List.mem_map.mp hx2
    have hx := hxi.trans hxj.symm
    rw [hm1e, hm2e] at hx
    obtain ⟨hm12, hij⟩ := nic_moref_inj_full m1 i m2 j hx
    apply hne
    rw [hm1e, hm2e, hm12]

lemma generate_dscs_eq (cls : List Cluster) (datastores : List Datastore) (r : Rng) :
    ∃ did2 rr, dscs_go datastores cls 1000 r =
      ((generate_datastore_clusters cls datastores r).1, did2, rr) := by
  rcases heq : dscs_go datastores cls 1000 r with ⟨dscs, did2, rr⟩
  refine ⟨did2, rr, ?_⟩
  rw [generate_datastore_clusters, heq]

lemma generate_nsx_tags_eq (vms : List VM) (r : Rng) :
    ∃ tid2 rr, tags_go vms ["Environment", "Application", "Security", "Compliance"] 1000 r =
      ((generate_nsx_tags vms r).1, tid2, rr) := by
  rcases heq : tags_go vms ["Environment", "Application", "Security", "Compliance"] 1000 r
    with ⟨tags, tid2, rr⟩
  refine ⟨tid2, rr, ?_⟩
  rw [generate_nsx_tags, heq]

/-- C9, counterexample: vCenter morefs are built from random `uuid` hex
fragments with no collision check, so identifiers of that kind need not be
pairwise distinct — under the all-zeros oracle every vCenter receives the
moref `vc-00000000`. -/
theorem C9_vcenter_moref_collision :
    generate_all cfg0 rngZero = some res00 ∧
    (res00.vcenters.getD 0 default).moref = "vc-00000000" ∧
    (res00.vcenters.getD 1 default).moref = "vc-00000000" ∧
    ¬ (res00.vcenters.map (fun vc => vc.moref)).Nodup :=
  ⟨rfl, by decide, by decide, by decide⟩

/-- C9 (amended): within one run, all morefs of every counter-based entity
kind — clusters, hosts, host NICs, VMs, datastores, datastore clusters,
virtual switches, networks, port groups and NSX tags — are pairwise
distinct; only the `uuid`-based kinds (vCenters, datacenters) lack this
guarantee. -/
theorem C9_counter_kind_morefs_nodup (cfg : Config) (r : Rng) (res : GenResult)
    (h : generate_all cfg r = some res) :
    (res.clusters.map (fun c => c.moref)).Nodup ∧
    (res.hosts.map (fun hh => hh.moref)).Nodup ∧
    (res.host_nics.map (fun nc => nc.moref)).Nodup ∧
    (res.vms.map (fun vm => vm.moref)).Nodup ∧
    (res.datastores.map (fun ds => ds.moref)).Nodup ∧
    (res.datastore_clusters.map (fun d => d.moref)).Nodup ∧
    (res.virtual_switches.map (fun sw => sw.moref)).Nodup ∧
    (res.networks.map (fun nt => nt.moref)).Nodup ∧
    (res.portgroups.map (fun pg => pg.moref)).Nodup ∧
    (res.nsx_tags.map (fun t => t.moref)).Nodup := by
  obtain ⟨r1, r2, r3, r4, r5, r6, r7, cls0A, cls1A, hvc, hdc, hcl, hho, hds, hdsc, hsw, hvm,
    hnet, htag⟩ := run_decompose cfg r res h
  obtain ⟨cls0, cls1, r3B, r6B, hid2, vid2, rrh, rrv, hnd0, hcls1, hcls2, hgo, vgo⟩ :=
    run_facts cfg r res h
  obtain ⟨hhost_mor, _, _, _, hnic_mor, _⟩ := hosts_go_spec cfg cls0 1000 r3B _ _ _ _ hgo
  obtain ⟨hvm_mor, _, _, _, _⟩ := vms_go_spec cfg res.vcenters res.hosts 1000 r6B _ _ _ _ vgo
  obtain ⟨did2, rrd, hdgo⟩ := generate_datastores_eq cfg cls1A r4 res.datastores r5 hds
  obtain ⟨hds_mor, _⟩ := datastores_go_spec cfg cls1A 1000 r4 _ _ _ hdgo
  obtain ⟨dd2, rr2, hdscgo⟩ := generate_dscs_eq cls1A res.datastores r5
  have hdscgo2 : dscs_go res.datastores cls1A 1000 r5 = (res.datastore_clusters, dd2, rr2) := by
    rw [hdsc] at hdscgo
    exact hdscgo
  obtain ⟨hdsc_mor, _⟩ := dscs_go_spec res.datastores cls1A 1000 r5 _ _ _ hdscgo2
  obtain ⟨nid2, hngo⟩ := generate_networks_eq res.vms res.vcenters res.networks res.portgroups hnet
  obtain ⟨_, _, hnet_mor, _, hpgs, _⟩ :=
    networks_go_spec res.vms res.vcenters 1000 res.networks res.portgroups nid2 hngo
  obtain ⟨tid2, rrt, htgo⟩ := generate_nsx_tags_eq res.vms r7
  have htgo2 : tags_go res.vms ["Environment", "Application", "Security", "Compliance"]
      1000 r7 = (res.nsx_tags, tid2, rrt) := by
    rw [htag]
    exact htgo
  obtain ⟨htag_mor, _⟩ := tags_go_spec res.vms _ 1000 r7 _ _ _ htgo2
  refine ⟨?_, ?_, ?_, ?_, ?_, ?_, ?_, ?_, ?_, ?_⟩
  · rw [hcls2, update_vm_totals_moref, hcls1, update_host_totals_moref]
    exact hnd0
  · rw [hhost_mor]
    exact nodup_pfx_range "host-" 1000 res.hosts.length
  · rw [hnic_mor]
    exact nic_flatMap_nodup res.hosts 1000 hhost_mor
  · rw [hvm_mor]
    exact nodup_pfx_range "vm-" 1000 res.vms.length
  · rw [hds_mor]
    exact nodup_pfx_range "datastore-" 1000 res.datastores.length
  · rw [hdsc_mor]
    exact nodup_pfx_range "dsc-" 1000 res.datastore_clusters.length
  · rw [hsw, generate_virtual_switches, (vswitches_go_spec res.vcenters 1000).1]
    exact nodup_pfx_range "dvs-" 1000 res.vcenters.length
  · rw [hnet_mor]
    exact nodup_pfx_range "network-" 1000 res.networks.length
  · rw [hpgs, map_pg_moref res.networks 1000 res.networks.length hnet_mor]
    exact nodup_pfx_range "pg-" 1000 res.networks.length
  · rw [htag_mor]
    exact nodup_pfx_range "tag-" 1000 res.nsx_tags.length

/-- C9, witness: cluster- and NIC-moref distinctness instantiated on the
concrete run. -/
theorem C9_counter_kind_morefs_nodup_witness :
    generate_all cfg0 rngZero = some res00 ∧
    (res00.clusters.map (fun c => c.moref)).Nodup ∧
    (res00.host_nics.map (fun nc => nc.moref)).Nodup :=
  ⟨rfl, (C9_counter_kind_morefs_nodup cfg0 rngZero res00 rfl).1,
    (C9_counter_kind_morefs_nodup cfg0 rngZero res00 rfl).2.2.1⟩

/-- C1: referential integrity fails for `parent_vswitch` — networks and
port groups reference `dvs-{region}-01`, a string that is neither the moref
(`dvs-{switch_id}`) nor the name (`{region}-DVS-01`) of any generated
virtual switch, as the concrete run exhibits; the spec's by-construction
referential-integrity guarantee does not hold for this field. -/
theorem C1_parent_vswitch_dangling :
    generate_all cfg0 rngZero = some res00 ∧
    (res00.networks.getD 0 default).parent_vswitch = "dvs-HQ-A-01" ∧
    (res00.portgroups.getD 0 default).parent_vswitch = "dvs-HQ-A-01" ∧
    res00.virtual_switches.map (fun sw => sw.moref) =
      ["dvs-1000", "dvs-1001", "dvs-1002", "dvs-1003", "dvs-1004"] ∧
    res00.virtual_switches.map (fun sw => sw.name) =
      ["HQ-A-DVS-01", "HQ-B-DVS-01", "NA-DVS-01", "EU-DVS-01", "APAC-DVS-01"] ∧
    (res00.networks.getD 0 default).parent_vswitch ∉
      res00.virtual_switches.map (fun sw => sw.moref) :=
  ⟨rfl, by decide, by decide, by decide, by decide, by decide⟩
